import Mathlib

/-!
# Response-policy filter engine (`pdns/filterpo.cc`)

A shallow embedding of the policy-matching core of `filterpo.cc`: the name and
address trigger lookups of a zone, the zone-ordered scans of the engine, the
trigger add and remove operations, the materialisation of a policy as a DNS
record, the address-to-name codec `maskToRPZ` and the zone dump.

Conventions of the embedding:

* a C++ out-parameter `Policy& pol` together with the `bool` result becomes a
  function `Policy → Bool × Policy` (the policy that comes back is the value of
  `pol` after the call);
* `std::shared_ptr<T>` becomes `Option T`; dereferencing an empty pointer and a
  thrown `std::runtime_error` are the two constructors of `Failure`, and code that
  can do either returns `Except Failure _`;
* `std::unordered_map<K, V>` becomes an association list `List (K × V)` read with
  `List.lookup` (first binding of a key);
* fixed-width integers are `Nat`/`Int`, with the conversion written out where
  the source converts (`toUInt32`).
-/

namespace Filterpo

/-! ## Collaborator types (declared outside `filterpo.cc`) -/

/-- Ways in which a call can end without returning a value. -/
inductive Failure where
  | runtimeError (what : String)
  | nullDereference
  deriving DecidableEq, Repr

deriving instance DecidableEq for Except

/-- Modelled from the spec: the domain-name type `DNSName` (declared in
`dnsname.hh`, not part of this file). A name is its list of labels, leftmost
label first; the root name is the empty list. Labels are taken in canonical
case, and the 255-octet bound on the length of a name is not modelled. -/
abbrev DNSName := List String

/-- The root name `.` (`g_rootdnsname`). -/
def g_rootdnsname : DNSName := []

/-- The wildcard name `*.` (`g_wildcarddnsname`). -/
def g_wildcarddnsname : DNSName := ["*"]

/-- Modelled from the spec: `DNSName::chopOff`, which removes the leftmost label
and reports whether there was one to remove (`false` at the root). The pair is
the returned flag and the name afterwards. -/
def DNSName.chopOff : DNSName → Bool × DNSName
  | [] => (false, [])
  | _ :: rest => (true, rest)

/-- Modelled from the spec: `DNSName::isWildcard`, true when the first label is `*`. -/
def DNSName.isWildcard : DNSName → Bool
  | [] => false
  | l :: _ => l == "*"

/-- Modelled from the spec: `DNSName::toString`, the labels each followed by a
dot, and `.` for the root. Escaping of special characters is not modelled. -/
def DNSName.toString (n : DNSName) : String :=
  match n with
  | [] => "."
  | _ => String.join (n.map (fun l => l ++ "."))

/-- Label splitter behind `DNSName.parse`: `cur` holds the characters of the
label being read, most recent first. -/
def DNSName.parseLabels : List Char → List Char → Except Failure DNSName
  | [], [] => .ok []
  | [], c :: cur => .ok [String.mk (c :: cur).reverse]
  | c :: cs, cur =>
    if c = '.' then
      match cur with
      | [] => .error (.runtimeError "empty label in name")
      | _ =>
        match DNSName.parseLabels cs [] with
        | .ok rest => .ok (String.mk cur.reverse :: rest)
        | .error e => .error e
    else DNSName.parseLabels cs (c :: cur)

/-- Modelled from the spec: construction of a `DNSName` from its textual form
(the `DNSName(const std::string&)` constructor): `""` and `"."` are the root,
labels are separated by dots, the final dot is optional and an empty label is
refused. Escapes are not modelled. -/
def DNSName.parse (s : String) : Except Failure DNSName :=
  if s = "" ∨ s = "." then .ok [] else DNSName.parseLabels s.toList []

/-- Modelled from the spec: the socket address `ComboAddress` (declared in
`iputils.hh`): an address family and the address as a number, most significant
octet first. A default-constructed `ComboAddress` is the IPv4 address `0.0.0.0`. -/
structure ComboAddress where
  isIPv4 : Bool := true
  addr : Nat := 0
  deriving DecidableEq, Repr

/-- Modelled from the spec: the CIDR block `Netmask` (declared in `iputils.hh`): a
network address and the number of leading bits that are significant. -/
structure Netmask where
  d_network : ComboAddress
  d_bits : Nat
  deriving DecidableEq, Repr

/-- Modelled from the spec: containment of an address in a CIDR block
(`Netmask::match`): same family and equal leading `d_bits` bits. -/
def Netmask.covers (nm : Netmask) (ip : ComboAddress) : Bool :=
  let width := if ip.isIPv4 then 32 else 128
  nm.d_network.isIPv4 == ip.isIPv4 &&
    ip.addr >>> (width - nm.d_bits) == nm.d_network.addr >>> (width - nm.d_bits)

/-- Record types used by the filter (`QType`). -/
def QType.A : Nat := 1
/-- Record type `CNAME`. -/
def QType.CNAME : Nat := 5
/-- Record type `SOA`. -/
def QType.SOA : Nat := 6
/-- Record type `AAAA`. -/
def QType.AAAA : Nat := 28
/-- Record class `IN` (`QClass::IN`). -/
def QClass.IN : Nat := 1

/-- Modelled from the spec: record content (`DNSRecordContent` and its subclasses,
declared in `dnsrecords.hh`) as a closed set of variants: the two address
records, `CNAME`, and content of any other class, which reports the type number it
carries. -/
inductive DNSRecordContent where
  | A (d_ip : Nat)
  | AAAA (d_ip6 : Nat)
  | CNAME (d_content : DNSName)
  | Unknown (d_type : Nat) (d_record : String)
  deriving DecidableEq, Repr

/-- The type number reported by a content object (`DNSRecordContent::getType`). -/
def DNSRecordContent.getType : DNSRecordContent → Nat
  | .A _ => QType.A
  | .AAAA _ => QType.AAAA
  | .CNAME _ => QType.CNAME
  | .Unknown t _ => t

/-- Section of a message a record sits in (`DNSResourceRecord::Place`). -/
inductive Place where
  | QUESTION
  | ANSWER
  | AUTHORITY
  | ADDITIONAL
  deriving DecidableEq, Repr

/-- Modelled from the spec: the resource record `DNSRecord` (declared in
`dnsparser.hh`). `d_content` is a shared pointer and may be empty. -/
structure DNSRecord where
  d_name : DNSName := []
  d_content : Option DNSRecordContent := none
  d_type : Nat := 0
  d_class : Nat := QClass.IN
  d_ttl : Nat := 0
  d_place : Place := .ANSWER
  deriving DecidableEq, Repr

/-- Modelled from the spec: `DNSRecordContent::mastermake` restricted to the one
use made of it here, building `CNAME` content from the textual form of the
target; other types yield content of the unknown class holding the text. -/
def DNSRecordContent.mastermake (qtype : Nat) (_qclass : Nat) (content : String) :
    Except Failure DNSRecordContent :=
  if qtype = QType.CNAME then
    match DNSName.parse content with
    | .ok target => .ok (.CNAME target)
    | .error e => .error e
  else .ok (.Unknown qtype content)

/-- Conversion of a signed 32-bit value to `uint32_t`. -/
def toUInt32 (i : Int) : Nat := (i % 4294967296).toNat

/-! ## Data model of the filter (declared in `filterpo.hh`) -/

/-- Action prescribed by a policy (`DNSFilterEngine::PolicyKind`). -/
inductive PolicyKind where
  | NoAction
  | Drop
  | NXDOMAIN
  | NODATA
  | Truncate
  | Custom
  deriving DecidableEq, Repr

/-- Trigger that produced a policy (`DNSFilterEngine::PolicyType`). -/
inductive PolicyType where
  | None
  | QName
  | ClientIP
  | ResponseIP
  | NSDName
  | NSIP
  deriving DecidableEq, Repr

/-- Modelled from the spec: `DNSFilterEngine::Policy`. The field defaults are
those of the default constructor: kind `NoAction`, type `None`, no custom
content, no zone name, ttl `0`. -/
structure Policy where
  d_kind : PolicyKind := .NoAction
  d_type : PolicyType := .None
  d_custom : Option DNSRecordContent := none
  d_name : Option String := none
  d_ttl : Int := 0
  deriving DecidableEq, Repr

/-- Modelled from the spec: the prefix table `NetmaskTree<Policy>` as the list
of its entries. -/
abbrev NetmaskTree := List (Netmask × Policy)

/-- Modelled from the spec: `NetmaskTree::lookup`, longest-prefix match: among
the entries whose block contains the address, the one with the most significant
bits (the earliest such entry), or nothing when no entry contains it. -/
def NetmaskTree.lookup (t : NetmaskTree) (ip : ComboAddress) : Option (Netmask × Policy) :=
  t.foldl
    (fun best e =>
      if e.1.covers ip then
        match best with
        | none => some e
        | some b => if b.1.d_bits < e.1.d_bits then some e else some b
      else best)
    none

/-- Modelled from the spec: `DNSFilterEngine::Zone`, its five trigger tables and
its identity. `d_name` is a shared pointer to the zone name and may be empty. -/
structure Zone where
  d_qpolName : List (DNSName × Policy) := []
  d_propolName : List (DNSName × Policy) := []
  d_qpolAddr : NetmaskTree := []
  d_propolNSAddr : NetmaskTree := []
  d_postpolAddr : NetmaskTree := []
  d_domain : DNSName := []
  d_name : Option String := none
  d_serial : Nat := 0
  d_refresh : Nat := 0
  deriving DecidableEq, Repr

/-- Modelled from the spec: `DNSFilterEngine`, the ordered vector of zone slots
(`vector<std::shared_ptr<Zone>> d_zones`); a slot may be empty. -/
structure DNSFilterEngine where
  d_zones : List (Option Zone) := []
  deriving DecidableEq, Repr

/-- The caller-supplied map of discarded zone names
(`std::unordered_map<std::string,bool>`). -/
abbrev DiscardedPolicies := List (String × Bool)

/-! ## Zone lookups (`filterpo.cc`, lines 34-97) -/

/-- The fallback loop of `findNamedPolicy`, `while(s.chopOff())`: each round
drops the leftmost label of `s` and looks the wildcard name
`g_wildcarddnsname+s` up; the loop ends without a hit when `s` is the root. -/
def Zone.findNamedPolicy.walk (polmap : List (DNSName × Policy)) :
    DNSName → Policy → Bool × Policy
  | [], pol => (false, pol)
  | _ :: s, pol =>
    match polmap.lookup (g_wildcarddnsname ++ s) with
    | some found => (true, found)
    | none => Zone.findNamedPolicy.walk polmap s pol

/-- Embedding of `DNSFilterEngine::Zone::findNamedPolicy`: the exact name first,
then the wildcard walk. -/
def Zone.findNamedPolicy (polmap : List (DNSName × Policy)) (qname : DNSName)
    (pol : Policy) : Bool × Policy :=
  match polmap.lookup qname with
  | some found => (true, found)
  | none => Zone.findNamedPolicy.walk polmap qname pol

/-- Embedding of `DNSFilterEngine::Zone::findQNamePolicy`. -/
def Zone.findQNamePolicy (z : Zone) (qname : DNSName) (pol : Policy) : Bool × Policy :=
  Zone.findNamedPolicy z.d_qpolName qname pol

/-- Embedding of `DNSFilterEngine::Zone::findNSPolicy`. -/
def Zone.findNSPolicy (z : Zone) (qname : DNSName) (pol : Policy) : Bool × Policy :=
  Zone.findNamedPolicy z.d_propolName qname pol

/-- Embedding of `DNSFilterEngine::Zone::findNSIPPolicy`. -/
def Zone.findNSIPPolicy (z : Zone) (addr : ComboAddress) (pol : Policy) : Bool × Policy :=
  match NetmaskTree.lookup z.d_propolNSAddr addr with
  | some fnd => (true, fnd.2)
  | none => (false, pol)

/-- Embedding of `DNSFilterEngine::Zone::findResponsePolicy`. -/
def Zone.findResponsePolicy (z : Zone) (addr : ComboAddress) (pol : Policy) : Bool × Policy :=
  match NetmaskTree.lookup z.d_postpolAddr addr with
  | some fnd => (true, fnd.2)
  | none => (false, pol)

/-- Embedding of `DNSFilterEngine::Zone::findClientPolicy`. -/
def Zone.findClientPolicy (z : Zone) (addr : ComboAddress) (pol : Policy) : Bool × Policy :=
  match NetmaskTree.lookup z.d_qpolAddr addr with
  | some fnd => (true, fnd.2)
  | none => (false, pol)

/-! ## Engine scans (`filterpo.cc`, lines 99-197) -/

/-- The test that makes a scan skip a zone:
`zoneName && discardedPolicies.find(*zoneName) != discardedPolicies.end()`. -/
def isDiscarded (zoneName : Option String) (discardedPolicies : DiscardedPolicies) : Bool :=
  match zoneName with
  | some n => (discardedPolicies.lookup n).isSome
  | none => false

/-- The zone loop shared in shape by the two `getProcessingPolicy` overloads and
the inner loop of `getPostPolicy`: `find` is the single lookup tried in each
zone. The flag tells whether the loop left through `return pol`. An empty slot
is dereferenced by `z->getName()`. -/
def scanZones (find : Zone → Policy → Bool × Policy) (discardedPolicies : DiscardedPolicies) :
    List (Option Zone) → Policy → Except Failure (Bool × Policy)
  | [], pol => .ok (false, pol)
  | none :: _, _ => .error .nullDereference
  | some z :: rest, pol =>
    if isDiscarded z.d_name discardedPolicies then
      scanZones find discardedPolicies rest pol
    else
      match find z pol with
      | (true, pol1) => .ok (true, pol1)
      | (false, pol1) => scanZones find discardedPolicies rest pol1

/-- Embedding of `DNSFilterEngine::getProcessingPolicy(const DNSName&, ...)`. -/
def DNSFilterEngine.getProcessingPolicy (e : DNSFilterEngine) (qname : DNSName)
    (discardedPolicies : DiscardedPolicies) : Except Failure Policy :=
  match scanZones (fun z pol => z.findNSPolicy qname pol) discardedPolicies e.d_zones {} with
  | .ok (_, pol) => .ok pol
  | .error f => .error f

/-- Embedding of `DNSFilterEngine::getProcessingPolicy(const ComboAddress&, ...)`. -/
def DNSFilterEngine.getProcessingPolicyAddr (e : DNSFilterEngine) (address : ComboAddress)
    (discardedPolicies : DiscardedPolicies) : Except Failure Policy :=
  match scanZones (fun z pol => z.findNSIPPolicy address pol) discardedPolicies e.d_zones {} with
  | .ok (_, pol) => .ok pol
  | .error f => .error f

/-- The zone loop of `getQueryPolicy`: in each zone that is not skipped the
query-name lookup, then the client-address lookup. -/
def DNSFilterEngine.getQueryPolicy.scan (qname : DNSName) (ca : ComboAddress)
    (discardedPolicies : DiscardedPolicies) : List (Option Zone) → Policy → Except Failure Policy
  | [], pol => .ok pol
  | none :: _, _ => .error .nullDereference
  | some z :: rest, pol =>
    if isDiscarded z.d_name discardedPolicies then
      DNSFilterEngine.getQueryPolicy.scan qname ca discardedPolicies rest pol
    else
      match z.findQNamePolicy qname pol with
      | (true, pol1) => .ok pol1
      | (false, pol1) =>
        match z.findClientPolicy ca pol1 with
        | (true, pol2) => .ok pol2
        | (false, pol2) => DNSFilterEngine.getQueryPolicy.scan qname ca discardedPolicies rest pol2

/-- Embedding of `DNSFilterEngine::getQueryPolicy`. -/
def DNSFilterEngine.getQueryPolicy (e : DNSFilterEngine) (qname : DNSName) (ca : ComboAddress)
    (discardedPolicies : DiscardedPolicies) : Except Failure Policy :=
  DNSFilterEngine.getQueryPolicy.scan qname ca discardedPolicies e.d_zones {}

/-- Modelled from the spec: `getRR<ARecordContent>(r)` followed by `getCA()`: the
address of the record when its content is of class `A`, nothing when the
dynamic cast fails. -/
def getRR_A (r : DNSRecord) : Option ComboAddress :=
  match r.d_content with
  | some (.A ip) => some { isIPv4 := true, addr := ip }
  | _ => none

/-- Modelled from the spec: `getRR<AAAARecordContent>(r)` followed by `getCA()`. -/
def getRR_AAAA (r : DNSRecord) : Option ComboAddress :=
  match r.d_content with
  | some (.AAAA ip) => some { isIPv4 := false, addr := ip }
  | _ => none

/-- The record loop of `getPostPolicy`. `ca` is declared outside the loop, so a
record of type `A` or `AAAA` whose content is not of the matching class leaves
the value of the previous round in it. -/
def DNSFilterEngine.getPostPolicy.records (zones : List (Option Zone))
    (discardedPolicies : DiscardedPolicies) :
    List DNSRecord → Policy → ComboAddress → Except Failure Policy
  | [], pol, _ => .ok pol
  | r :: rest, pol, ca =>
    if r.d_place ≠ Place.ANSWER then
      DNSFilterEngine.getPostPolicy.records zones discardedPolicies rest pol ca
    else
      let next : Option ComboAddress :=
        if r.d_type = QType.A then
          some (match getRR_A r with
            | some a => a
            | none => ca)
        else if r.d_type = QType.AAAA then
          some (match getRR_AAAA r with
            | some a => a
            | none => ca)
        else none
      match next with
      | none => DNSFilterEngine.getPostPolicy.records zones discardedPolicies rest pol ca
      | some ca1 =>
        match scanZones (fun z p => z.findResponsePolicy ca1 p) discardedPolicies zones pol with
        | .error f => .error f
        | .ok (true, pol1) => .ok pol1
        | .ok (false, pol1) =>
          DNSFilterEngine.getPostPolicy.records zones discardedPolicies rest pol1 ca1

/-- Embedding of `DNSFilterEngine::getPostPolicy`. -/
def DNSFilterEngine.getPostPolicy (e : DNSFilterEngine) (records : List DNSRecord)
    (discardedPolicies : DiscardedPolicies) : Except Failure Policy :=
  DNSFilterEngine.getPostPolicy.records e.d_zones discardedPolicies records {} {}

/-- The address the record loop of `getPostPolicy` reads out of a record by
itself (lines 166-177): that of the `A` content for type `A`, that of the `AAAA`
content for type `AAAA`; nothing for another type or when the cast fails. -/
def recordAddress (r : DNSRecord) : Option ComboAddress :=
  if r.d_type = QType.A then getRR_A r
  else if r.d_type = QType.AAAA then getRR_AAAA r
  else none

/-- Embedding of `DNSFilterEngine::assureZones`: `resize(zone+1)` appends empty
slots when the vector is not longer than `zone`. -/
def DNSFilterEngine.assureZones (e : DNSFilterEngine) (zone : Nat) : DNSFilterEngine :=
  if e.d_zones.length ≤ zone then
    { e with d_zones := e.d_zones ++ List.replicate (zone + 1 - e.d_zones.length) none }
  else e

/-- The engine from which the zones named in the discard map have been removed,
worded after the discard rule of the spec rather than after the code: a slot is
dropped when it holds a zone that has a name and that name is a key of the map;
zones without a name, and empty slots, stay where they are. -/
def DNSFilterEngine.withoutDiscarded (e : DNSFilterEngine) (dp : DiscardedPolicies) :
    DNSFilterEngine :=
  { d_zones := e.d_zones.filter (fun slot =>
      match slot with
      | some z =>
        match z.d_name with
        | some n => decide (n ∉ dp.map Prod.fst)
        | none => true
      | none => true) }

/-! ## Materialisation of a policy (`filterpo.cc`, lines 264-331) -/

/-- Embedding of `DNSFilterEngine::Policy::getCustomRecord`. -/
def Policy.getCustomRecord (p : Policy) (qname : DNSName) : Except Failure DNSRecord :=
  if p.d_kind ≠ PolicyKind.Custom then
    .error (.runtimeError
      "Asking for a custom record from a filtering policy of a non-custom type")
  else
    match p.d_custom with
    | none => .error .nullDereference
    | some custom =>
      let result : DNSRecord :=
        { d_name := qname
          d_type := custom.getType
          d_ttl := toUInt32 p.d_ttl
          d_class := QClass.IN
          d_place := Place.ANSWER
          d_content := some custom }
      if result.d_type = QType.CNAME then
        match custom with
        | .CNAME target =>
          if DNSName.isWildcard target then
            .ok { result with
              d_content := some (.CNAME (qname ++ (DNSName.chopOff target).2)) }
          else .ok result
        | _ => .ok result
      else .ok result

/-- The name `rpz-drop.` (`static const DNSName drop`). -/
def Policy.drop : DNSName := ["rpz-drop"]
/-- The name `rpz-tcp-only.` (`static const DNSName truncate`). -/
def Policy.truncate : DNSName := ["rpz-tcp-only"]
/-- The name `rpz-passthru.` (`static const DNSName noaction`). -/
def Policy.noaction : DNSName := ["rpz-passthru"]

/-- Embedding of `DNSFilterEngine::Policy::getKindToString`; the `default`
branch of the `switch` is reached by the kind `Custom`. -/
def Policy.getKindToString (p : Policy) : Except Failure String :=
  match p.d_kind with
  | .NoAction => .ok (DNSName.toString Policy.noaction)
  | .Drop => .ok (DNSName.toString Policy.drop)
  | .NXDOMAIN => .ok (DNSName.toString g_rootdnsname)
  | .NODATA => .ok (DNSName.toString g_wildcarddnsname)
  | .Truncate => .ok (DNSName.toString Policy.truncate)
  | .Custom => .error (.runtimeError "Unexpected DNSFilterEngine::Policy kind")

/-- Embedding of `DNSFilterEngine::Policy::getRecord`. -/
def Policy.getRecord (p : Policy) (qname : DNSName) : Except Failure DNSRecord :=
  if p.d_kind = PolicyKind.Custom then
    p.getCustomRecord qname
  else
    match p.getKindToString with
    | .error f => .error f
    | .ok text =>
      match DNSRecordContent.mastermake QType.CNAME QClass.IN text with
      | .error f => .error f
      | .ok content =>
        .ok { d_name := qname
              d_ttl := toUInt32 p.d_ttl
              d_type := QType.CNAME
              d_class := QClass.IN
              d_content := some content }

/-! ## Trigger management (`filterpo.cc`, lines 199-262) -/

/-- Modelled from the spec: insert-or-overwrite on a table, the effect of
`m[key] = value` on a `std::unordered_map` and of `t.insert(key).second = value`
on a `NetmaskTree`: the value of an entry with that key is replaced, and a new
entry is added when there is none. Keys of the prefix table are compared as
given (canonical prefixes). -/
def tableAssign {κ ν : Type} [BEq κ] : List (κ × ν) → κ → ν → List (κ × ν)
  | [], key, value => [(key, value)]
  | (k, v) :: rest, key, value =>
    if key == k then (k, value) :: rest else (k, v) :: tableAssign rest key value

/-- Modelled from the spec: `erase(key)` on either kind of table: every entry
with that key is removed. -/
def tableErase {κ ν : Type} [BEq κ] (table : List (κ × ν)) (key : κ) : List (κ × ν) :=
  table.filter (fun entry => !(key == entry.1))

/-- Embedding of `DNSFilterEngine::Zone::addClientTrigger`. -/
def Zone.addClientTrigger (z : Zone) (nm : Netmask) (pol : Policy) : Zone :=
  let pol1 := { pol with d_name := z.d_name }
  let pol2 := { pol1 with d_type := PolicyType.ClientIP }
  { z with d_qpolAddr := tableAssign z.d_qpolAddr nm pol2 }

/-- Embedding of `DNSFilterEngine::Zone::addResponseTrigger`. -/
def Zone.addResponseTrigger (z : Zone) (nm : Netmask) (pol : Policy) : Zone :=
  let pol1 := { pol with d_name := z.d_name }
  let pol2 := { pol1 with d_type := PolicyType.ResponseIP }
  { z with d_postpolAddr := tableAssign z.d_postpolAddr nm pol2 }

/-- Embedding of `DNSFilterEngine::Zone::addQNameTrigger`. -/
def Zone.addQNameTrigger (z : Zone) (n : DNSName) (pol : Policy) : Zone :=
  let pol1 := { pol with d_name := z.d_name }
  let pol2 := { pol1 with d_type := PolicyType.QName }
  { z with d_qpolName := tableAssign z.d_qpolName n pol2 }

/-- Embedding of `DNSFilterEngine::Zone::addNSTrigger`. -/
def Zone.addNSTrigger (z : Zone) (n : DNSName) (pol : Policy) : Zone :=
  let pol1 := { pol with d_name := z.d_name }
  let pol2 := { pol1 with d_type := PolicyType.NSDName }
  { z with d_propolName := tableAssign z.d_propolName n pol2 }

/-- Embedding of `DNSFilterEngine::Zone::addNSIPTrigger`. -/
def Zone.addNSIPTrigger (z : Zone) (nm : Netmask) (pol : Policy) : Zone :=
  let pol1 := { pol with d_name := z.d_name }
  let pol2 := { pol1 with d_type := PolicyType.NSIP }
  { z with d_propolNSAddr := tableAssign z.d_propolNSAddr nm pol2 }

/-- Embedding of `DNSFilterEngine::Zone::rmClientTrigger`; the pair is the
returned flag and the zone afterwards. The `Policy&` argument is never read or
written. -/
def Zone.rmClientTrigger (z : Zone) (nm : Netmask) (_pol : Policy) : Bool × Zone :=
  (true, { z with d_qpolAddr := tableErase z.d_qpolAddr nm })

/-- Embedding of `DNSFilterEngine::Zone::rmResponseTrigger`. -/
def Zone.rmResponseTrigger (z : Zone) (nm : Netmask) (_pol : Policy) : Bool × Zone :=
  (true, { z with d_postpolAddr := tableErase z.d_postpolAddr nm })

/-- Embedding of `DNSFilterEngine::Zone::rmQNameTrigger`. -/
def Zone.rmQNameTrigger (z : Zone) (n : DNSName) (_pol : Policy) : Bool × Zone :=
  (true, { z with d_qpolName := tableErase z.d_qpolName n })

/-- Embedding of `DNSFilterEngine::Zone::rmNSTrigger`. -/
def Zone.rmNSTrigger (z : Zone) (n : DNSName) (_pol : Policy) : Bool × Zone :=
  (true, { z with d_propolName := tableErase z.d_propolName n })

/-- Embedding of `DNSFilterEngine::Zone::rmNSIPTrigger`. -/
def Zone.rmNSIPTrigger (z : Zone) (nm : Netmask) (_pol : Policy) : Bool × Zone :=
  (true, { z with d_propolNSAddr := tableErase z.d_propolNSAddr nm })

/-! ## Address-name codec (`filterpo.cc`, lines 339-381) -/

/-- Modelled from the spec: `std::to_string` on a non-negative integer, its
decimal digits. -/
def to_string (n : Nat) : String := Nat.repr n

/-- Modelled from the spec: the octet `bytes[i]` of an IPv4 address read through
`reinterpret_cast<const uint8_t*>(&addr.sin4.sin_addr.s_addr)`; `s_addr` is kept in
network order, so `bytes[0]` is the first octet of the dotted form. -/
def ComboAddress.byte (a : ComboAddress) (i : Nat) : Nat :=
  (a.addr >>> (8 * (3 - i))) % 256

/-- The eight 16-bit groups of an IPv6 address, first group first. -/
def ComboAddress.words (a : ComboAddress) : List Nat :=
  (List.range 8).map (fun i => (a.addr >>> (16 * (7 - i))) % 65536)

/-- Start and length of the longest run of zero groups, the first one on a tie;
the length is `0` when no group is zero. -/
def ComboAddress.zeroRun (ws : List Nat) : Nat × Nat :=
  (List.range ws.length).foldl
    (fun best i =>
      let len := ((ws.drop i).takeWhile (fun w => w == 0)).length
      if best.2 < len then (i, len) else best)
    (0, 0)

/-- Modelled from the spec: `ComboAddress::toString` (in `iputils.hh`, which asks
the C library for the numeric form): the dotted quad of an IPv4 address, and for
an IPv6 address the groups in lower-case hexadecimal without leading zeros,
joined by colons, with the longest run of two or more zero groups written `::`;
an address that embeds an IPv4 address (`::ffff:a.b.c.d` and `::a.b.c.d`) has its
last 32 bits written as a dotted quad. -/
def ComboAddress.toString (a : ComboAddress) : String :=
  let quad := fun (x : ComboAddress) =>
    String.intercalate "." ((List.range 4).map (fun i => to_string (x.byte i)))
  if a.isIPv4 then quad a
  else
    let ws := a.words
    let hex := fun (w : Nat) => String.mk (Nat.toDigits 16 w)
    let run := ComboAddress.zeroRun ws
    if run.2 < 2 then String.intercalate ":" (ws.map hex)
    else if run.1 = 0 ∧ (run.2 = 6 ∨ (run.2 = 5 ∧ ws[5]? = some 65535)) then
      "::" ++ (if run.2 = 5 then "ffff:" else "") ++ quad { addr := a.addr % 4294967296 }
    else
      String.intercalate ":" ((ws.take run.1).map hex) ++ "::" ++
        String.intercalate ":" ((ws.drop (run.1 + run.2)).map hex)

/-- The `while (begin < len)` loop of the IPv6 branch of `maskToRPZ`. `rest` is
the text from position `begin` on and `temp` the name built so far; a round
takes the piece `sub` up to the next colon (`str.find(":", begin)`), puts
`DNSName("zz")` for an empty piece and `DNSName(sub)` otherwise in front of
`temp`, and goes on behind the colon or stops when there is none. Every round
but the last consumes a colon, so `str.size()` rounds are always enough. -/
def Zone.maskToRPZ.loop : Nat → List Char → DNSName → Except Failure DNSName
  | 0, _, temp => .ok temp
  | fuel + 1, rest, temp =>
    if rest.isEmpty then .ok temp
    else
      let sub := rest.takeWhile (fun c => c != ':')
      let found := rest.dropWhile (fun c => c != ':')
      match (if sub.isEmpty then DNSName.parse "zz" else DNSName.parse (String.mk sub)) with
      | .error f => .error f
      | .ok piece =>
        match found with
        | [] => .ok (piece ++ temp)
        | _ :: after => Zone.maskToRPZ.loop fuel after (piece ++ temp)

/-- Embedding of `DNSFilterEngine::Zone::maskToRPZ`. `addrToString` stands for
`ComboAddress::toString`, which is not part of this file; the `DNSName`
constructor can refuse its argument, hence the `Except`. -/
def Zone.maskToRPZ (addrToString : ComboAddress → String) (nm : Netmask) :
    Except Failure DNSName :=
  let bits := nm.d_bits
  match DNSName.parse (to_string bits) with
  | .error f => .error f
  | .ok res =>
    let addr := nm.d_network
    if addr.isIPv4 then
      match DNSName.parse (to_string (addr.byte 3) ++ "." ++ to_string (addr.byte 2) ++ "." ++
          to_string (addr.byte 1) ++ "." ++ to_string (addr.byte 0)) with
      | .error f => .error f
      | .ok octets => .ok (res ++ octets)
    else
      let str := addrToString addr
      match Zone.maskToRPZ.loop str.length str.toList [] with
      | .error f => .error f
      | .ok temp => .ok (res ++ temp)

/-- Value of a string of decimal digits. -/
def decodeDecimal (s : String) : Nat :=
  s.toList.foldl (fun acc c => 10 * acc + (c.toNat - 48)) 0

/-- Decoder for the IPv4 names of `maskToRPZ`, used to state that the encoding
can be inverted: the five labels `n.d.c.b.a` give the block `a.b.c.d/n`. -/
def rpzToNetmask4 : DNSName → Option Netmask
  | [n, d, c, b, a] =>
    some { d_network :=
             { isIPv4 := true
               addr := ((decodeDecimal a * 256 + decodeDecimal b) * 256 + decodeDecimal c) * 256
                 + decodeDecimal d }
           d_bits := decodeDecimal n }
  | _ => none

/-! ## Zone serialisation (`filterpo.cc`, lines 333-418)

The text written to `FILE* fp` is modelled as the list of lines written, and
the text conversions of the record types, `QType::getName` and
`DNSRecordContent::getZoneRepresentation`, which are not part of this file, are
the parameters `typeName` and `zoneRepresentation`. -/

/-- The line written by the `fprintf` call shared by `dumpNamedPolicy` and
`dumpAddrPolicy`, format `"%s %" PRIu32 " IN %s %s\n"`; the content pointer of
the record is dereferenced. -/
def Zone.dumpRecord (typeName : Nat → String) (zoneRepresentation : DNSRecordContent → String)
    (dr : DNSRecord) : Except Failure String :=
  match dr.d_content with
  | none => .error .nullDereference
  | some content =>
    .ok (DNSName.toString dr.d_name ++ " " ++ to_string dr.d_ttl ++ " IN " ++
      typeName dr.d_type ++ " " ++ zoneRepresentation content ++ "\n")

/-- Embedding of `DNSFilterEngine::Zone::dumpNamedPolicy`; the result is the line
written. -/
def Zone.dumpNamedPolicy (typeName : Nat → String)
    (zoneRepresentation : DNSRecordContent → String) (name : DNSName) (pol : Policy) :
    Except Failure String :=
  match pol.getRecord name with
  | .error f => .error f
  | .ok dr => Zone.dumpRecord typeName zoneRepresentation dr

/-- Embedding of `DNSFilterEngine::Zone::dumpAddrPolicy`; the result is the line
written. -/
def Zone.dumpAddrPolicy (addrToString : ComboAddress → String) (typeName : Nat → String)
    (zoneRepresentation : DNSRecordContent → String) (nm : Netmask) (name : DNSName)
    (pol : Policy) : Except Failure String :=
  match Zone.maskToRPZ addrToString nm with
  | .error f => .error f
  | .ok full =>
    match pol.getRecord (full ++ name) with
    | .error f => .error f
    | .ok dr => Zone.dumpRecord typeName zoneRepresentation dr

/-- A `for` loop of `dump` over one table: the lines written for its entries, in
the order the table is walked; the first failure ends the call. -/
def Zone.dump.each {ε : Type} (line : ε → Except Failure String) :
    List ε → Except Failure (List String)
  | [] => .ok []
  | entry :: rest =>
    match line entry with
    | .error f => .error f
    | .ok first =>
      match Zone.dump.each line rest with
      | .error f => .error f
      | .ok others => .ok (first :: others)

/-- The line written first by `dump`, format `"%s IN SOA %s\n"`, for the made-up
`SOA` content. -/
def Zone.dump.soa (zoneRepresentation : DNSRecordContent → String) (z : Zone) :
    Except Failure String :=
  match DNSRecordContent.mastermake QType.SOA QClass.IN
      ("fake.RPZ. hostmaster.fake.RPZ. " ++ to_string z.d_serial ++ " " ++
        to_string z.d_refresh ++ " 600 3600000 604800") with
  | .error f => .error f
  | .ok soa => .ok (DNSName.toString z.d_domain ++ " IN SOA " ++ zoneRepresentation soa ++ "\n")

/-- Embedding of `DNSFilterEngine::Zone::dump`: the lines written, the `SOA`
line and then the five tables one after the other. The names `rpz-nsdname.`,
`rpz-client-ip.`, `rpz-nsip.` and `rpz-ip.` are single labels. -/
def Zone.dump (addrToString : ComboAddress → String) (typeName : Nat → String)
    (zoneRepresentation : DNSRecordContent → String) (z : Zone) :
    Except Failure (List String) :=
  match Zone.dump.soa zoneRepresentation z with
  | .error f => .error f
  | .ok soa =>
    match Zone.dump.each (fun pair : DNSName × Policy =>
        Zone.dumpNamedPolicy typeName zoneRepresentation (pair.1 ++ z.d_domain) pair.2)
        z.d_qpolName with
    | .error f => .error f
    | .ok qname =>
      match Zone.dump.each (fun pair : DNSName × Policy =>
          Zone.dumpNamedPolicy typeName zoneRepresentation
            (pair.1 ++ ["rpz-nsdname"] ++ z.d_domain) pair.2)
          z.d_propolName with
      | .error f => .error f
      | .ok nsdname =>
        match Zone.dump.each (fun pair : Netmask × Policy =>
            Zone.dumpAddrPolicy addrToString typeName zoneRepresentation pair.1
              (["rpz-client-ip"] ++ z.d_domain) pair.2)
            z.d_qpolAddr with
        | .error f => .error f
        | .ok client =>
          match Zone.dump.each (fun pair : Netmask × Policy =>
              Zone.dumpAddrPolicy addrToString typeName zoneRepresentation pair.1
                (["rpz-nsip"] ++ z.d_domain) pair.2)
              z.d_propolNSAddr with
          | .error f => .error f
          | .ok nsip =>
            match Zone.dump.each (fun pair : Netmask × Policy =>
                Zone.dumpAddrPolicy addrToString typeName zoneRepresentation pair.1
                  (["rpz-ip"] ++ z.d_domain) pair.2)
                z.d_postpolAddr with
            | .error f => .error f
            | .ok response => .ok (soa :: (qname ++ nsdname ++ client ++ nsip ++ response))

end Filterpo

namespace Filterpo

/-! ## Name-trigger lookup: exact match and wildcard walk -/

/-- A miss of the wildcard walk hands back the policy it was given. -/
theorem walk_miss_keeps (polmap : List (DNSName × Policy)) (s : DNSName) (pol : Policy)
    (h : (Zone.findNamedPolicy.walk polmap s pol).1 = false) :
    Zone.findNamedPolicy.walk polmap s pol = (false, pol) := by
  induction s with
  | nil => rfl
  | cons a s ih =>
    unfold Zone.findNamedPolicy.walk at h ⊢
    cases hl : polmap.lookup (g_wildcarddnsname ++ s) with
    | some found => simp [hl] at h
    | none =>
      simp only [hl] at h ⊢
      exact ih h

/-- The wildcard walk returns the policy at the first wildcard key it meets, going
from the longest proper suffix to the root. -/
theorem walk_hit (polmap : List (DNSName × Policy)) (pol : Policy) :
    ∀ (s : DNSName) (k : Nat) (found : Policy), 1 ≤ k → k ≤ s.length →
      polmap.lookup (g_wildcarddnsname ++ s.drop k) = some found →
      (∀ j, 1 ≤ j → j < k → polmap.lookup (g_wildcarddnsname ++ s.drop j) = none) →
      Zone.findNamedPolicy.walk polmap s pol = (true, found) := by
  intro s
  induction s with
  | nil => intro k found h1 h2; simp at h2; omega
  | cons a s ih =>
    intro k found h1 h2 hk hj
    unfold Zone.findNamedPolicy.walk
    rcases Nat.lt_or_ge 1 k with hgt | hle
    · have h1n := hj 1 (le_refl 1) hgt
      simp only [List.drop_succ_cons, List.drop_zero] at h1n
      simp only [h1n]
      obtain ⟨m, rfl⟩ : ∃ m, k = m + 1 := ⟨k - 1, by omega⟩
      simp only [List.length_cons] at h2
      simp only [List.drop_succ_cons] at hk
      refine ih m found (by omega) (by omega) hk ?_
      intro j hj1 hj2
      have := hj (j + 1) (by omega) (by omega)
      simp only [List.drop_succ_cons] at this
      exact this
    · have hk1 : k = 1 := by omega
      subst hk1
      simp only [List.drop_succ_cons, List.drop_zero] at hk
      simp only [hk]

/-- The wildcard walk misses exactly when no wildcard key over a proper suffix is
present. -/
theorem walk_miss_iff (polmap : List (DNSName × Policy)) (pol : Policy) :
    ∀ (s : DNSName), (Zone.findNamedPolicy.walk polmap s pol).1 = false ↔
      ∀ k, 1 ≤ k → k ≤ s.length → polmap.lookup (g_wildcarddnsname ++ s.drop k) = none := by
  intro s
  induction s with
  | nil =>
    constructor
    · intro _ k h1 h2; simp at h2; omega
    · intro _; rfl
  | cons a s ih =>
    unfold Zone.findNamedPolicy.walk
    cases hl : polmap.lookup (g_wildcarddnsname ++ s) with
    | some found =>
      simp only [Bool.true_eq_false, false_iff, not_forall]
      refine ⟨1, le_refl 1, by simp only [List.length_cons]; omega, ?_⟩
      simp only [List.drop_succ_cons, List.drop_zero, hl]
      exact fun h => Option.noConfusion h
    | none =>
      simp only
      rw [ih]
      constructor
      · intro h k h1 h2
        obtain ⟨m, rfl⟩ : ∃ m, k = m + 1 := ⟨k - 1, by omega⟩
        simp only [List.length_cons] at h2
        simp only [List.drop_succ_cons]
        rcases Nat.eq_zero_or_pos m with rfl | hm
        · exact hl
        · exact h m hm (by omega)
      · intro h k h1 h2
        have := h (k + 1) (by omega) (by simp only [List.length_cons]; omega)
        simp only [List.drop_succ_cons] at this
        exact this

/-- Two tables that answer every key alike give the same walk. -/
theorem walk_congr (polmap polmap2 : List (DNSName × Policy)) (pol : Policy)
    (h : ∀ key, polmap2.lookup key = polmap.lookup key) (s : DNSName) :
    Zone.findNamedPolicy.walk polmap2 s pol = Zone.findNamedPolicy.walk polmap s pol := by
  induction s with
  | nil => rfl
  | cons a s ih =>
    unfold Zone.findNamedPolicy.walk
    rw [h, ih]

/-- Two tables that answer every key alike give the same lookup result. -/
theorem findNamedPolicy_congr (polmap polmap2 : List (DNSName × Policy)) (pol : Policy)
    (h : ∀ key, polmap2.lookup key = polmap.lookup key) (qname : DNSName) :
    Zone.findNamedPolicy polmap2 qname pol = Zone.findNamedPolicy polmap qname pol := by
  unfold Zone.findNamedPolicy
  rw [h, walk_congr polmap polmap2 pol h]

/-- Reordering the bindings of a table whose keys are distinct does not change
what a key is bound to. -/
theorem lookup_perm {κ ν : Type} [BEq κ] [LawfulBEq κ] {l₁ l₂ : List (κ × ν)}
    (hp : l₁.Perm l₂) (hn : (l₁.map Prod.fst).Nodup) (key : κ) :
    l₂.lookup key = l₁.lookup key := by
  induction hp with
  | nil => rfl
  | cons x _ ih =>
    simp only [List.map_cons, List.nodup_cons] at hn
    obtain ⟨a, b⟩ := x
    simp only [List.lookup_cons]
    rw [ih hn.2]
  | swap x y l =>
    obtain ⟨a, b⟩ := x
    obtain ⟨c, d⟩ := y
    simp only [List.map_cons, List.nodup_cons, List.mem_cons, not_or] at hn
    simp only [List.lookup_cons]
    cases h1 : key == a <;> cases h2 : key == c
    · rfl
    · rfl
    · rfl
    · exact absurd ((eq_of_beq h2).symm.trans (eq_of_beq h1)) hn.1.1
  | trans h1 _ ih1 ih2 =>
    rw [ih2 ((h1.map Prod.fst).nodup_iff.mp hn), ih1 hn]

/-- A key bound in the table is answered by the exact-match step. -/
theorem findNamedPolicy_of_lookup (polmap : List (DNSName × Policy)) (qname : DNSName)
    (pol found : Policy) (h : polmap.lookup qname = some found) :
    Zone.findNamedPolicy polmap qname pol = (true, found) := by
  unfold Zone.findNamedPolicy
  rw [h]

/-- A miss of `findNamedPolicy` hands back the policy it was given. -/
theorem findNamedPolicy_miss_keeps (polmap : List (DNSName × Policy)) (qname : DNSName)
    (pol : Policy) (h : (Zone.findNamedPolicy polmap qname pol).1 = false) :
    Zone.findNamedPolicy polmap qname pol = (false, pol) := by
  unfold Zone.findNamedPolicy at h ⊢
  cases hl : polmap.lookup qname with
  | some found => simp [hl] at h
  | none =>
    simp only [hl] at h ⊢
    exact walk_miss_keeps polmap qname pol h

/-- A miss of `findQNamePolicy` hands back the policy it was given. -/
theorem findQNamePolicy_miss_keeps (z : Zone) (qname : DNSName) (pol : Policy)
    (h : (z.findQNamePolicy qname pol).1 = false) : z.findQNamePolicy qname pol = (false, pol) :=
  findNamedPolicy_miss_keeps z.d_qpolName qname pol h

/-- A miss of `findNSPolicy` hands back the policy it was given. -/
theorem findNSPolicy_miss_keeps (z : Zone) (qname : DNSName) (pol : Policy)
    (h : (z.findNSPolicy qname pol).1 = false) : z.findNSPolicy qname pol = (false, pol) :=
  findNamedPolicy_miss_keeps z.d_propolName qname pol h

/-- A miss of `findClientPolicy` hands back the policy it was given. -/
theorem findClientPolicy_miss_keeps (z : Zone) (addr : ComboAddress) (pol : Policy)
    (h : (z.findClientPolicy addr pol).1 = false) : z.findClientPolicy addr pol = (false, pol) := by
  unfold Zone.findClientPolicy at h ⊢
  cases hl : NetmaskTree.lookup z.d_qpolAddr addr with
  | some fnd => simp [hl] at h
  | none => rfl

/-- A miss of `findNSIPPolicy` hands back the policy it was given. -/
theorem findNSIPPolicy_miss_keeps (z : Zone) (addr : ComboAddress) (pol : Policy)
    (h : (z.findNSIPPolicy addr pol).1 = false) : z.findNSIPPolicy addr pol = (false, pol) := by
  unfold Zone.findNSIPPolicy at h ⊢
  cases hl : NetmaskTree.lookup z.d_propolNSAddr addr with
  | some fnd => simp [hl] at h
  | none => rfl

/-- A miss of `findResponsePolicy` hands back the policy it was given. -/
theorem findResponsePolicy_miss_keeps (z : Zone) (addr : ComboAddress) (pol : Policy)
    (h : (z.findResponsePolicy addr pol).1 = false) :
    z.findResponsePolicy addr pol = (false, pol) := by
  unfold Zone.findResponsePolicy at h ⊢
  cases hl : NetmaskTree.lookup z.d_postpolAddr addr with
  | some fnd => simp [hl] at h
  | none => rfl

/-! ## Engine scans over populated slots -/

/-- On an engine whose slots are all populated the zone loop of `getQueryPolicy`,
started with the neutral policy, stops at the first zone that is not skipped and
in which one of the two lookups hits. -/
theorem getQueryPolicy_scan_populated (qname : DNSName) (ca : ComboAddress)
    (dp : DiscardedPolicies) (zones : List Zone) :
    DNSFilterEngine.getQueryPolicy.scan qname ca dp (zones.map some) {} =
      .ok (match zones.find? (fun z => !isDiscarded z.d_name dp &&
              ((z.findQNamePolicy qname {}).1 || (z.findClientPolicy ca {}).1)) with
        | some z =>
          if (z.findQNamePolicy qname {}).1 = true then (z.findQNamePolicy qname {}).2
          else (z.findClientPolicy ca {}).2
        | none => {}) := by
  induction zones with
  | nil => rfl
  | cons z rest ih =>
    simp only [List.map_cons, DNSFilterEngine.getQueryPolicy.scan, List.find?_cons]
    cases hd : isDiscarded z.d_name dp with
    | true => simpa using ih
    | false =>
      rcases hq : z.findQNamePolicy qname {} with ⟨bq, pq⟩
      cases bq with
      | true => simp [hq]
      | false =>
        have hk := findQNamePolicy_miss_keeps z qname {} (by rw [hq])
        rw [hq] at hk
        obtain rfl : pq = {} := (Prod.mk.inj hk).2
        rcases hc : z.findClientPolicy ca {} with ⟨bc, pc⟩
        cases bc with
        | true => simp [hq, hc]
        | false =>
          have hk2 := findClientPolicy_miss_keeps z ca {} (by rw [hc])
          rw [hc] at hk2
          obtain rfl : pc = {} := (Prod.mk.inj hk2).2
          simpa [hq, hc] using ih

/-- On populated slots the single-lookup zone loop, started with the neutral
policy, stops at the first zone that is not skipped and in which the lookup
hits; `find` is any lookup whose miss leaves the policy untouched. -/
theorem scanZones_populated (find : Zone → Policy → Bool × Policy)
    (hfind : ∀ z pol, (find z pol).1 = false → find z pol = (false, pol))
    (dp : DiscardedPolicies) (zones : List Zone) :
    scanZones find dp (zones.map some) {} =
      .ok (match zones.find? (fun z => !isDiscarded z.d_name dp && (find z {}).1) with
        | some z => (true, (find z {}).2)
        | none => (false, {})) := by
  induction zones with
  | nil => rfl
  | cons z rest ih =>
    simp only [List.map_cons, scanZones, List.find?_cons]
    cases hd : isDiscarded z.d_name dp with
    | true => simpa using ih
    | false =>
      rcases hq : find z {} with ⟨bq, pq⟩
      cases bq with
      | true => simp [hq]
      | false =>
        have hk := hfind z {} (by rw [hq])
        rw [hq] at hk
        obtain rfl : pq = {} := (Prod.mk.inj hk).2
        simpa [hq] using ih

/-- On populated slots and records that carry content of their type, the record
loop of `getPostPolicy` returns the match of the first answer record of type `A`
or `AAAA` that has one, whatever address was left over from earlier rounds. -/
theorem getPostPolicy_records_populated (zones : List Zone) (dp : DiscardedPolicies) :
    ∀ (records : List DNSRecord) (ca : ComboAddress),
      (∀ r ∈ records, r.d_place = Place.ANSWER → (r.d_type = QType.A ∨ r.d_type = QType.AAAA) →
        (recordAddress r).isSome = true) →
      DNSFilterEngine.getPostPolicy.records (zones.map some) dp records {} ca =
        .ok (((records.filter (fun r => decide (r.d_place = Place.ANSWER) &&
                (decide (r.d_type = QType.A) || decide (r.d_type = QType.AAAA)))).findSome?
              (fun r => (zones.find? (fun z => !isDiscarded z.d_name dp &&
                  (z.findResponsePolicy ((recordAddress r).getD {}) {}).1)).map
                (fun z => (z.findResponsePolicy ((recordAddress r).getD {}) {}).2))).getD {}) := by
  intro records
  induction records with
  | nil => intro ca _; rfl
  | cons r rest ih =>
    intro ca htyped
    have hrest : ∀ r ∈ rest, r.d_place = Place.ANSWER →
        (r.d_type = QType.A ∨ r.d_type = QType.AAAA) → (recordAddress r).isSome = true :=
      fun x hx => htyped x (List.mem_cons_of_mem _ hx)
    have hr := htyped r (List.mem_cons_self _ _)
    unfold DNSFilterEngine.getPostPolicy.records
    by_cases hp : r.d_place = Place.ANSWER
    · by_cases hA : r.d_type = QType.A
      · have hsome := hr hp (Or.inl hA)
        have haddr : recordAddress r = getRR_A r := by simp [recordAddress, hA]
        rw [haddr] at hsome
        obtain ⟨a, ha⟩ := Option.isSome_iff_exists.mp hsome
        have hscan := scanZones_populated (fun z p => z.findResponsePolicy a p)
          (fun z pol => findResponsePolicy_miss_keeps z a pol) dp zones
        simp only [hp, hA, ha, ne_eq, not_true_eq_false, if_false, if_true, hscan]
        rw [List.filter_cons]
        simp only [hp, hA, decide_True, Bool.true_or, Bool.and_self, if_true,
          List.findSome?_cons, haddr, ha, Option.getD_some]
        cases hf : zones.find? (fun z => !isDiscarded z.d_name dp &&
            (z.findResponsePolicy a {}).1) with
        | some z => simp
        | none => simpa using ih a hrest
      · by_cases hAAAA : r.d_type = QType.AAAA
        · have hsome := hr hp (Or.inr hAAAA)
          have haddr : recordAddress r = getRR_AAAA r := by
            unfold recordAddress
            rw [if_neg hA, if_pos hAAAA]
          rw [haddr] at hsome
          obtain ⟨a, ha⟩ := Option.isSome_iff_exists.mp hsome
          have hscan := scanZones_populated (fun z p => z.findResponsePolicy a p)
            (fun z pol => findResponsePolicy_miss_keeps z a pol) dp zones
          have hdA : decide (r.d_type = QType.A) = false := decide_eq_false hA
          have hdAAAA : decide (r.d_type = QType.AAAA) = true := decide_eq_true hAAAA
          simp only [hp, if_neg hA, if_pos hAAAA, ha, ne_eq, not_true_eq_false, if_false, hscan]
          rw [List.filter_cons]
          simp only [hp, hdA, hdAAAA, decide_True, Bool.or_true, Bool.and_self, if_true,
            List.findSome?_cons, haddr, ha, Option.getD_some]
          cases hf : zones.find? (fun z => !isDiscarded z.d_name dp &&
              (z.findResponsePolicy a {}).1) with
          | some z => simp
          | none => simpa using ih a hrest
        · have hdA : decide (r.d_type = QType.A) = false := decide_eq_false hA
          have hdAAAA : decide (r.d_type = QType.AAAA) = false := decide_eq_false hAAAA
          simp only [hp, if_neg hA, if_neg hAAAA, ne_eq, not_true_eq_false, if_false]
          rw [List.filter_cons]
          simp only [hp, hdA, hdAAAA, decide_True, Bool.or_self, Bool.and_false,
            Bool.false_eq_true, if_false]
          exact ih ca hrest
    · simp only [ne_eq, hp, not_false_eq_true, if_true]
      rw [List.filter_cons]
      simp only [hp, decide_False, Bool.false_and, Bool.false_eq_true, if_false]
      exact ih ca hrest

/-- On populated slots the single-lookup zone loop finishes without a hit, and
with the neutral policy, when the lookup misses in every zone that is not
skipped. -/
theorem scanZones_miss (find : Zone → Policy → Bool × Policy)
    (hfind : ∀ z pol, (find z pol).1 = false → find z pol = (false, pol))
    (dp : DiscardedPolicies) (zones : List Zone)
    (hmiss : ∀ z ∈ zones, isDiscarded z.d_name dp = false → (find z {}).1 = false) :
    scanZones find dp (zones.map some) {} = .ok (false, {}) := by
  rw [scanZones_populated find hfind dp zones]
  have hnone : zones.find? (fun z => !isDiscarded z.d_name dp && (find z {}).1) = none := by
    rw [List.find?_eq_none]
    intro z hz
    cases hd : isDiscarded z.d_name dp with
    | true => simp
    | false => simp [hmiss z hz hd]
  rw [hnone]

/-! ## The discard rule -/

/-- A key is bound in the discard map exactly when it occurs among its keys. -/
theorem lookup_isSome_iff_mem_keys (dp : DiscardedPolicies) (n : String) :
    (dp.lookup n).isSome = true ↔ n ∈ dp.map Prod.fst := by
  induction dp with
  | nil => simp [List.lookup]
  | cons x rest ih =>
    obtain ⟨k, v⟩ := x
    simp only [List.lookup_cons, List.map_cons, List.mem_cons]
    cases hk : n == k with
    | true =>
      have : n = k := eq_of_beq hk
      simp [this]
    | false =>
      have hne : n ≠ k := fun h => by simp [h] at hk
      simp only [ih]
      constructor
      · exact Or.inr
      · rintro (h | h)
        · exact absurd h hne
        · exact h

/-- A zone is skipped exactly when it has a name that is a key of the discard map. -/
theorem isDiscarded_iff (name : Option String) (dp : DiscardedPolicies) :
    isDiscarded name dp = true ↔ ∃ n, name = some n ∧ n ∈ dp.map Prod.fst := by
  cases name with
  | none => simp [isDiscarded]
  | some n => simp [isDiscarded, lookup_isSome_iff_mem_keys]

/-- Nothing is skipped under the empty discard map. -/
theorem isDiscarded_nil (name : Option String) : isDiscarded name [] = false := by
  cases name <;> rfl

/-- The slots kept by `withoutDiscarded` are those the scans do not skip. -/
theorem withoutDiscarded_zones (e : DNSFilterEngine) (dp : DiscardedPolicies) :
    (e.withoutDiscarded dp).d_zones = e.d_zones.filter (fun slot =>
      match slot with
      | some z => !isDiscarded z.d_name dp
      | none => true) := by
  unfold DNSFilterEngine.withoutDiscarded
  simp only
  apply List.filter_congr
  intro slot _
  cases slot with
  | none => rfl
  | some z =>
    simp only
    cases hn : z.d_name with
    | none => simp [isDiscarded]
    | some n =>
      by_cases hm : n ∈ dp.map Prod.fst
      · have hd : isDiscarded (some n) dp = true := (isDiscarded_iff (some n) dp).mpr ⟨n, rfl, hm⟩
        simp only [hd, Bool.not_true, decide_eq_false_iff_not, not_not]
        exact hm
      · have hd : isDiscarded (some n) dp = false := by
          cases h : isDiscarded (some n) dp with
          | false => rfl
          | true =>
            obtain ⟨m, hm1, hm2⟩ := (isDiscarded_iff (some n) dp).mp h
            cases hm1
            exact absurd hm2 hm
        simp only [hd, Bool.not_false, decide_eq_true_eq]
        exact hm

/-- The single-lookup zone loop with a discard map equals the loop with the
empty map over the slots that are not skipped. -/
theorem scanZones_filter (find : Zone → Policy → Bool × Policy) (dp : DiscardedPolicies) :
    ∀ (slots : List (Option Zone)) (pol : Policy),
      scanZones find dp slots pol =
        scanZones find [] (slots.filter (fun slot =>
          match slot with
          | some z => !isDiscarded z.d_name dp
          | none => true)) pol := by
  intro slots
  induction slots with
  | nil => intro pol; rfl
  | cons slot rest ih =>
    intro pol
    cases slot with
    | none => simp [List.filter_cons, scanZones]
    | some z =>
      cases hd : isDiscarded z.d_name dp with
      | true => simp [List.filter_cons, scanZones, hd, ih]
      | false =>
        simp only [List.filter_cons, scanZones, hd, Bool.not_false, if_true, isDiscarded_nil,
          Bool.false_eq_true, if_false]
        rcases find z pol with ⟨b, p1⟩
        cases b with
        | true => rfl
        | false => exact ih p1

/-- The zone loop of `getQueryPolicy` with a discard map equals the loop with the
empty map over the slots that are not skipped. -/
theorem getQueryPolicy_scan_filter (qname : DNSName) (ca : ComboAddress)
    (dp : DiscardedPolicies) :
    ∀ (slots : List (Option Zone)) (pol : Policy),
      DNSFilterEngine.getQueryPolicy.scan qname ca dp slots pol =
        DNSFilterEngine.getQueryPolicy.scan qname ca [] (slots.filter (fun slot =>
          match slot with
          | some z => !isDiscarded z.d_name dp
          | none => true)) pol := by
  intro slots
  induction slots with
  | nil => intro pol; rfl
  | cons slot rest ih =>
    intro pol
    cases slot with
    | none => simp [List.filter_cons, DNSFilterEngine.getQueryPolicy.scan]
    | some z =>
      cases hd : isDiscarded z.d_name dp with
      | true => simp [List.filter_cons, DNSFilterEngine.getQueryPolicy.scan, hd, ih]
      | false =>
        simp only [List.filter_cons, DNSFilterEngine.getQueryPolicy.scan, hd, Bool.not_false,
          if_true, isDiscarded_nil, Bool.false_eq_true, if_false]
        rcases z.findQNamePolicy qname pol with ⟨b, p1⟩
        cases b with
        | true => rfl
        | false =>
          simp only
          rcases z.findClientPolicy ca p1 with ⟨b2, p2⟩
          cases b2 with
          | true => rfl
          | false => exact ih p2

/-- The record loop of `getPostPolicy` with a discard map equals the loop with the
empty map over the slots that are not skipped. -/
theorem getPostPolicy_records_filter (slots : List (Option Zone)) (dp : DiscardedPolicies) :
    ∀ (records : List DNSRecord) (pol : Policy) (ca : ComboAddress),
      DNSFilterEngine.getPostPolicy.records slots dp records pol ca =
        DNSFilterEngine.getPostPolicy.records (slots.filter (fun slot =>
          match slot with
          | some z => !isDiscarded z.d_name dp
          | none => true)) [] records pol ca := by
  intro records
  induction records with
  | nil => intro pol ca; rfl
  | cons r rest ih =>
    intro pol ca
    unfold DNSFilterEngine.getPostPolicy.records
    by_cases hp : r.d_place ≠ Place.ANSWER
    · rw [if_pos hp, if_pos hp]
      exact ih pol ca
    · rw [if_neg hp, if_neg hp]
      generalize (if r.d_type = QType.A then
          some (match getRR_A r with
            | some a => a
            | none => ca)
        else if r.d_type = QType.AAAA then
          some (match getRR_AAAA r with
            | some a => a
            | none => ca)
        else none) = next
      cases next with
      | none => exact ih pol ca
      | some ca1 =>
        simp only
        rw [← scanZones_filter (fun z p => z.findResponsePolicy ca1 p) dp slots pol]
        rcases scanZones (fun z p => z.findResponsePolicy ca1 p) dp slots pol with f | ⟨b, p1⟩
        · rfl
        · cases b with
          | true => rfl
          | false => exact ih p1 ca1

/-- C2: exact-match precedence. When the table binds the query name itself,
`findNamedPolicy` reports a hit and hands back the policy bound to that exact
key; the table is arbitrary, so any wildcard keys `*.<suffix>` covering the name
may be present as well. -/
theorem findNamedPolicy_exact (polmap : List (DNSName × Policy)) (qname : DNSName)
    (pol found : Policy) (h : polmap.lookup qname = some found) :
    Zone.findNamedPolicy polmap qname pol = (true, found) :=
  findNamedPolicy_of_lookup polmap qname pol found h

/-- Witness for C2: the table holds `www.example.com.` next to the covering
wildcards `*.example.com.` and `*.`, bound earlier; the exact binding is returned. -/
theorem findNamedPolicy_exact_witness :
    List.lookup (["www", "example", "com"] : DNSName)
        [((["*", "example", "com"] : DNSName), ({ d_kind := .Drop } : Policy)),
         ((["*"] : DNSName), ({ d_kind := .NODATA } : Policy)),
         ((["www", "example", "com"] : DNSName), ({ d_kind := .NXDOMAIN } : Policy))]
      = some { d_kind := .NXDOMAIN } ∧
    Zone.findNamedPolicy
        [((["*", "example", "com"] : DNSName), ({ d_kind := .Drop } : Policy)),
         ((["*"] : DNSName), ({ d_kind := .NODATA } : Policy)),
         ((["www", "example", "com"] : DNSName), ({ d_kind := .NXDOMAIN } : Policy))]
        ["www", "example", "com"] {}
      = (true, { d_kind := .NXDOMAIN }) :=
  ⟨by decide, findNamedPolicy_exact _ _ _ _ (by decide)⟩

/-- C3: most-specific-wildcard precedence. For a query name that is not itself a
key, `findNamedPolicy` hands back the policy bound to `*.S` for the longest
suffix `S` reached by dropping `k ≥ 1` leading labels (down to the root, `k` the
number of labels) whose wildcard key is present, and it reports no match, leaving
the caller's policy as it was, exactly when no such key is present. The answer
depends on the table only through what each key is bound to, so it is the same
for any reordering of a table with distinct keys. -/
theorem findNamedPolicy_wildcard (polmap : List (DNSName × Policy)) (qname : DNSName)
    (pol : Policy) (hq : polmap.lookup qname = none) :
    (∀ (k : Nat) (found : Policy), 1 ≤ k → k ≤ qname.length →
      polmap.lookup (g_wildcarddnsname ++ qname.drop k) = some found →
      (∀ j, 1 ≤ j → j < k → polmap.lookup (g_wildcarddnsname ++ qname.drop j) = none) →
      Zone.findNamedPolicy polmap qname pol = (true, found)) ∧
    ((Zone.findNamedPolicy polmap qname pol).1 = false ↔
      ∀ k, 1 ≤ k → k ≤ qname.length →
        polmap.lookup (g_wildcarddnsname ++ qname.drop k) = none) ∧
    ((Zone.findNamedPolicy polmap qname pol).1 = false →
      Zone.findNamedPolicy polmap qname pol = (false, pol)) ∧
    (∀ polmap2 : List (DNSName × Policy), (∀ key, polmap2.lookup key = polmap.lookup key) →
      Zone.findNamedPolicy polmap2 qname pol = Zone.findNamedPolicy polmap qname pol) ∧
    (∀ polmap2 : List (DNSName × Policy), polmap.Perm polmap2 →
      (polmap.map Prod.fst).Nodup →
      Zone.findNamedPolicy polmap2 qname pol = Zone.findNamedPolicy polmap qname pol) := by
  have hfind : Zone.findNamedPolicy polmap qname pol
      = Zone.findNamedPolicy.walk polmap qname pol := by
    unfold Zone.findNamedPolicy
    rw [hq]
  refine ⟨?_, ?_, ?_, ?_, ?_⟩
  · intro k found h1 h2 hk hj
    rw [hfind]
    exact walk_hit polmap pol qname k found h1 h2 hk hj
  · rw [hfind]
    exact walk_miss_iff polmap pol qname
  · rw [hfind]
    exact walk_miss_keeps polmap qname pol
  · intro polmap2 h
    exact findNamedPolicy_congr polmap polmap2 pol h qname
  · intro polmap2 hp hn
    exact findNamedPolicy_congr polmap polmap2 pol (fun key => lookup_perm hp hn key) qname

/-- Witness for C3: with `*.c.` bound before `*.b.c.`, the query `a.b.c.` gets the
policy of `*.b.c.`, the longer suffix (one label dropped). -/
theorem findNamedPolicy_wildcard_witness :
    List.lookup (["a", "b", "c"] : DNSName)
        [((["*", "c"] : DNSName), ({ d_kind := .Drop } : Policy)),
         ((["*", "b", "c"] : DNSName), ({ d_kind := .NXDOMAIN } : Policy))] = none ∧
    Zone.findNamedPolicy
        [((["*", "c"] : DNSName), ({ d_kind := .Drop } : Policy)),
         ((["*", "b", "c"] : DNSName), ({ d_kind := .NXDOMAIN } : Policy))]
        ["a", "b", "c"] {}
      = (true, { d_kind := .NXDOMAIN }) :=
  ⟨by decide,
   (findNamedPolicy_wildcard
      [((["*", "c"] : DNSName), ({ d_kind := .Drop } : Policy)),
       ((["*", "b", "c"] : DNSName), ({ d_kind := .NXDOMAIN } : Policy))]
      ["a", "b", "c"] {} (by decide)).1 1 { d_kind := .NXDOMAIN } (by decide) (by decide)
      (by decide) (fun j h1 h2 => absurd h2 (by omega))⟩

/-- C1: zone order dominates trigger-kind order in `getQueryPolicy`. On an engine
whose slots are all populated the call returns, for the first zone in list order
that is not discarded and in which the query-name lookup or the client-address
lookup hits, the query-name policy when that lookup hits and the client-address
policy otherwise (and the neutral policy when there is no such zone). So a hit
of either kind in a zone wins over whatever the zones after it hold. For two
zones that both bind the query name itself, the first zone's policy is returned
unless the first zone is discarded, and then the second zone's policy is, unless
it is discarded too. -/
theorem getQueryPolicy_zone_order (zones : List Zone) (qname : DNSName) (ca : ComboAddress)
    (dp : DiscardedPolicies) :
    DNSFilterEngine.getQueryPolicy { d_zones := zones.map some } qname ca dp =
      .ok (match zones.find? (fun z => !isDiscarded z.d_name dp &&
              ((z.findQNamePolicy qname {}).1 || (z.findClientPolicy ca {}).1)) with
        | some z =>
          if (z.findQNamePolicy qname {}).1 = true then (z.findQNamePolicy qname {}).2
          else (z.findClientPolicy ca {}).2
        | none => {}) ∧
    (∀ (before : List Zone) (z : Zone) (after : List Zone),
      zones = before ++ z :: after →
      (∀ b ∈ before, isDiscarded b.d_name dp = true ∨
        ((b.findQNamePolicy qname {}).1 = false ∧ (b.findClientPolicy ca {}).1 = false)) →
      isDiscarded z.d_name dp = false →
      ((z.findQNamePolicy qname {}).1 = true ∨ (z.findClientPolicy ca {}).1 = true) →
      DNSFilterEngine.getQueryPolicy { d_zones := zones.map some } qname ca dp =
        .ok (if (z.findQNamePolicy qname {}).1 = true then (z.findQNamePolicy qname {}).2
          else (z.findClientPolicy ca {}).2)) ∧
    (∀ (z1 z2 : Zone) (p1 p2 : Policy),
      z1.d_qpolName.lookup qname = some p1 → z2.d_qpolName.lookup qname = some p2 →
      DNSFilterEngine.getQueryPolicy { d_zones := [some z1, some z2] } qname ca dp =
        .ok (if isDiscarded z1.d_name dp = true then
              (if isDiscarded z2.d_name dp = true then {} else p2)
            else p1)) := by
  refine ⟨getQueryPolicy_scan_populated qname ca dp zones, ?_, ?_⟩
  · intro before z after hzones hbefore helig hhit
    unfold DNSFilterEngine.getQueryPolicy
    rw [getQueryPolicy_scan_populated qname ca dp zones, hzones, List.find?_append]
    have hnone : before.find? (fun z => !isDiscarded z.d_name dp &&
        ((z.findQNamePolicy qname {}).1 || (z.findClientPolicy ca {}).1)) = none := by
      rw [List.find?_eq_none]
      intro b hb
      rcases hbefore b hb with h | h
      · simp [h]
      · simp [h.1, h.2]
    have hz : (!isDiscarded z.d_name dp &&
        ((z.findQNamePolicy qname {}).1 || (z.findClientPolicy ca {}).1)) = true := by
      rcases hhit with h | h <;> simp [helig, h]
    rw [hnone, Option.none_or, List.find?_cons, hz]
  · intro z1 z2 p1 p2 h1 h2
    have e1 : ∀ pol, z1.findQNamePolicy qname pol = (true, p1) :=
      fun pol => findNamedPolicy_of_lookup z1.d_qpolName qname pol p1 h1
    have e2 : ∀ pol, z2.findQNamePolicy qname pol = (true, p2) :=
      fun pol => findNamedPolicy_of_lookup z2.d_qpolName qname pol p2 h2
    simp only [DNSFilterEngine.getQueryPolicy, DNSFilterEngine.getQueryPolicy.scan, e1, e2]
    cases isDiscarded z1.d_name dp <;> cases isDiscarded z2.d_name dp <;> simp

/-- Witness for C1: two named zones bind `example.com.` to different policies; with
the first zone in the discard map the second zone's policy comes back, and the
client-address trigger of the first zone does not matter. -/
theorem getQueryPolicy_zone_order_witness :
    DNSFilterEngine.getQueryPolicy
        { d_zones :=
            [some { d_name := some "first",
                    d_qpolName := [((["example", "com"] : DNSName), ({ d_kind := .Drop } : Policy))] },
             some { d_name := some "second",
                    d_qpolName :=
                      [((["example", "com"] : DNSName), ({ d_kind := .NXDOMAIN } : Policy))] }] }
        ["example", "com"] {} [("first", false)]
      = .ok { d_kind := .NXDOMAIN } :=
  ((getQueryPolicy_zone_order [] ["example", "com"] {} [("first", false)]).2.2
      { d_name := some "first",
        d_qpolName := [((["example", "com"] : DNSName), ({ d_kind := .Drop } : Policy))] }
      { d_name := some "second",
        d_qpolName := [((["example", "com"] : DNSName), ({ d_kind := .NXDOMAIN } : Policy))] }
      { d_kind := .Drop } { d_kind := .NXDOMAIN } (by decide) (by decide)).trans (by decide)

/-- C4 as stated fails on two inputs. First, an engine with an empty slot (one
zone, then `assureZones 1`): the first `A` record matches nowhere, so the zone
loop runs into the empty slot and the call ends in a dereference of an empty
pointer, although the second record matches in the zone. Second, an answer
record of type `A` whose content is not of class `A`: it has no address, yet the
loop looks up the default-constructed address `0.0.0.0` and returns the policy
found for it. -/
theorem getPostPolicy_every_engine_counterexample :
    (DNSFilterEngine.getPostPolicy
        (DNSFilterEngine.assureZones
          { d_zones := [some { d_postpolAddr :=
              [(({ d_network := { addr := 3221225984 }, d_bits := 24 } : Netmask),
                ({ d_kind := .NXDOMAIN } : Policy))] }] } 1)
        [{ d_type := QType.A, d_content := some (.A 167772161) },
         { d_type := QType.A, d_content := some (.A 3221225985) }] []
        = .error .nullDereference ∧
      Zone.findResponsePolicy
        { d_postpolAddr :=
            [(({ d_network := { addr := 3221225984 }, d_bits := 24 } : Netmask),
              ({ d_kind := .NXDOMAIN } : Policy))] }
        { addr := 3221225985 } {} = (true, { d_kind := .NXDOMAIN })) ∧
    (DNSFilterEngine.getPostPolicy
        { d_zones := [some { d_postpolAddr :=
            [(({ d_network := { addr := 0 }, d_bits := 8 } : Netmask),
              ({ d_kind := .Drop } : Policy))] }] }
        [{ d_type := QType.A, d_content := some (.CNAME ["example", "com"]) }] []
        = .ok { d_kind := .Drop } ∧
      recordAddress { d_type := QType.A, d_content := some (.CNAME ["example", "com"]) }
        = none) := by
  decide

/-- C4 (amended): record order takes precedence over zone order in
`getPostPolicy`. On an engine whose slots are all populated, and for records
whose answer-section entries of type `A` or `AAAA` carry content of that type,
the call keeps the records of the answer section of type `A` or `AAAA` in
their order and returns, for the first of them whose address is matched by the
response-address lookup of some zone that is not discarded, the policy found
in the first such zone in list order; the neutral policy when there is none. -/
theorem getPostPolicy_record_order (zones : List Zone) (records : List DNSRecord)
    (dp : DiscardedPolicies)
    (htyped : ∀ r ∈ records, r.d_place = Place.ANSWER →
      (r.d_type = QType.A ∨ r.d_type = QType.AAAA) → (recordAddress r).isSome = true) :
    DNSFilterEngine.getPostPolicy { d_zones := zones.map some } records dp =
      .ok (((records.filter (fun r => decide (r.d_place = Place.ANSWER) &&
              (decide (r.d_type = QType.A) || decide (r.d_type = QType.AAAA)))).findSome?
            (fun r => (zones.find? (fun z => !isDiscarded z.d_name dp &&
                (z.findResponsePolicy ((recordAddress r).getD {}) {}).1)).map
              (fun z => (z.findResponsePolicy ((recordAddress r).getD {}) {}).2))).getD {}) :=
  getPostPolicy_records_populated zones dp records {} htyped

/-- Witness for C4: the high-priority zone matches only `198.51.100.0/24`, the
low-priority zone only `192.0.2.0/24`; the answer holds `192.0.2.1` and then
`198.51.100.7`, and the low-priority zone's policy is returned. -/
theorem getPostPolicy_record_order_witness :
    (∀ r ∈ ([{ d_type := QType.A, d_content := some (.A 3221225985) },
             { d_type := QType.A, d_content := some (.A 3325256711) }] : List DNSRecord),
      r.d_place = Place.ANSWER → (r.d_type = QType.A ∨ r.d_type = QType.AAAA) →
        (recordAddress r).isSome = true) ∧
    DNSFilterEngine.getPostPolicy
        { d_zones := List.map some
            [{ d_name := some "high",
               d_postpolAddr :=
                 [(({ d_network := { addr := 3325256704 }, d_bits := 24 } : Netmask),
                   ({ d_kind := .Drop } : Policy))] },
             { d_name := some "low",
               d_postpolAddr :=
                 [(({ d_network := { addr := 3221225984 }, d_bits := 24 } : Netmask),
                   ({ d_kind := .NXDOMAIN } : Policy))] }] }
        [{ d_type := QType.A, d_content := some (.A 3221225985) },
         { d_type := QType.A, d_content := some (.A 3325256711) }] []
      = .ok { d_kind := .NXDOMAIN } :=
  ⟨by decide,
   (getPostPolicy_record_order
      [{ d_name := some "high",
         d_postpolAddr :=
           [(({ d_network := { addr := 3325256704 }, d_bits := 24 } : Netmask),
             ({ d_kind := .Drop } : Policy))] },
       { d_name := some "low",
         d_postpolAddr :=
           [(({ d_network := { addr := 3221225984 }, d_bits := 24 } : Netmask),
             ({ d_kind := .NXDOMAIN } : Policy))] }]
      [{ d_type := QType.A, d_content := some (.A 3221225985) },
       { d_type := QType.A, d_content := some (.A 3325256711) }] [] (by decide)).trans
    (by decide)⟩

/-- C5 as stated fails on two inputs. On the engine made of one empty slot
(`assureZones 0` on the empty engine) no zone has a matching trigger, yet each
of the four calls ends in a dereference of an empty pointer instead of returning
the neutral policy. And for an answer record of type `A` without `A` content no
trigger matches the record, which has no address, yet `getPostPolicy` returns the
policy stored for `0.0.0.0`. -/
theorem neutral_policy_every_engine_counterexample :
    DNSFilterEngine.getQueryPolicy (DNSFilterEngine.assureZones {} 0) ["example", "com"] {} []
      = .error .nullDereference ∧
    DNSFilterEngine.getProcessingPolicy (DNSFilterEngine.assureZones {} 0) ["ns", "example"] []
      = .error .nullDereference ∧
    DNSFilterEngine.getProcessingPolicyAddr (DNSFilterEngine.assureZones {} 0) {} []
      = .error .nullDereference ∧
    DNSFilterEngine.getPostPolicy (DNSFilterEngine.assureZones {} 0)
        [{ d_type := QType.A, d_content := some (.A 3221225985) }] []
      = .error .nullDereference ∧
    DNSFilterEngine.getPostPolicy
        { d_zones := [some { d_postpolAddr :=
            [(({ d_network := { addr := 0 }, d_bits := 0 } : Netmask),
              ({ d_kind := .Truncate } : Policy))] }] }
        [{ d_type := QType.AAAA, d_content := none }] []
      = .ok { d_kind := .Truncate } := by
  decide

/-- C5 (amended): the neutral policy on a miss. On an engine whose slots are all
populated, each of `getQueryPolicy`, the two `getProcessingPolicy` overloads and
`getPostPolicy` (for records whose answer-section entries of type `A` or `AAAA`
carry content of that type) returns the default-constructed policy, of kind
`NoAction`, type `None` and without zone name, when no zone that is not
discarded has a matching trigger for the input; this covers the empty zone list
and the case where every zone is discarded, and `getPostPolicy` returns it for
an empty record list on any engine. A lookup that misses hands the caller's
policy back untouched. -/
theorem neutral_policy_on_miss (zones : List Zone) (dp : DiscardedPolicies) :
    (∀ (qname : DNSName) (ca : ComboAddress),
      (∀ z ∈ zones, isDiscarded z.d_name dp = false →
        (z.findQNamePolicy qname {}).1 = false ∧ (z.findClientPolicy ca {}).1 = false) →
      DNSFilterEngine.getQueryPolicy { d_zones := zones.map some } qname ca dp = .ok {}) ∧
    (∀ (qname : DNSName),
      (∀ z ∈ zones, isDiscarded z.d_name dp = false → (z.findNSPolicy qname {}).1 = false) →
      DNSFilterEngine.getProcessingPolicy { d_zones := zones.map some } qname dp = .ok {}) ∧
    (∀ (address : ComboAddress),
      (∀ z ∈ zones, isDiscarded z.d_name dp = false →
        (z.findNSIPPolicy address {}).1 = false) →
      DNSFilterEngine.getProcessingPolicyAddr { d_zones := zones.map some } address dp
        = .ok {}) ∧
    (∀ (records : List DNSRecord),
      (∀ r ∈ records, r.d_place = Place.ANSWER →
        (r.d_type = QType.A ∨ r.d_type = QType.AAAA) → (recordAddress r).isSome = true) →
      (∀ r ∈ records, r.d_place = Place.ANSWER → ∀ a, recordAddress r = some a →
        ∀ z ∈ zones, isDiscarded z.d_name dp = false →
          (z.findResponsePolicy a {}).1 = false) →
      DNSFilterEngine.getPostPolicy { d_zones := zones.map some } records dp = .ok {}) ∧
    (∀ (e : DNSFilterEngine), DNSFilterEngine.getPostPolicy e [] dp = .ok {}) ∧
    (({} : Policy).d_kind = PolicyKind.NoAction ∧ ({} : Policy).d_type = PolicyType.None ∧
      ({} : Policy).d_name = none) ∧
    (∀ (z : Zone) (qname : DNSName) (addr : ComboAddress) (pol : Policy),
      ((z.findQNamePolicy qname pol).1 = false → (z.findQNamePolicy qname pol).2 = pol) ∧
      ((z.findNSPolicy qname pol).1 = false → (z.findNSPolicy qname pol).2 = pol) ∧
      ((z.findClientPolicy addr pol).1 = false → (z.findClientPolicy addr pol).2 = pol) ∧
      ((z.findNSIPPolicy addr pol).1 = false → (z.findNSIPPolicy addr pol).2 = pol) ∧
      ((z.findResponsePolicy addr pol).1 = false →
        (z.findResponsePolicy addr pol).2 = pol)) := by
  refine ⟨?_, ?_, ?_, ?_, ?_, ⟨rfl, rfl, rfl⟩, ?_⟩
  · intro qname ca hmiss
    unfold DNSFilterEngine.getQueryPolicy
    rw [getQueryPolicy_scan_populated qname ca dp zones]
    have hnone : zones.find? (fun z => !isDiscarded z.d_name dp &&
        ((z.findQNamePolicy qname {}).1 || (z.findClientPolicy ca {}).1)) = none := by
      rw [List.find?_eq_none]
      intro z hz
      cases hd : isDiscarded z.d_name dp with
      | true => simp
      | false => simp [(hmiss z hz hd).1, (hmiss z hz hd).2]
    rw [hnone]
  · intro qname hmiss
    unfold DNSFilterEngine.getProcessingPolicy
    rw [scanZones_miss (fun z pol => z.findNSPolicy qname pol)
      (fun z pol => findNSPolicy_miss_keeps z qname pol) dp zones hmiss]
  · intro address hmiss
    unfold DNSFilterEngine.getProcessingPolicyAddr
    rw [scanZones_miss (fun z pol => z.findNSIPPolicy address pol)
      (fun z pol => findNSIPPolicy_miss_keeps z address pol) dp zones hmiss]
  · intro records htyped hmiss
    have hclosed := getPostPolicy_records_populated zones dp records {} htyped
    unfold DNSFilterEngine.getPostPolicy
    rw [hclosed]
    have hnone : (records.filter (fun r => decide (r.d_place = Place.ANSWER) &&
          (decide (r.d_type = QType.A) || decide (r.d_type = QType.AAAA)))).findSome?
        (fun r => (zones.find? (fun z => !isDiscarded z.d_name dp &&
            (z.findResponsePolicy ((recordAddress r).getD {}) {}).1)).map
          (fun z => (z.findResponsePolicy ((recordAddress r).getD {}) {}).2)) = none := by
      rw [List.findSome?_eq_none_iff]
      intro r hr
      rw [List.mem_filter] at hr
      obtain ⟨hmem, hcond⟩ := hr
      simp only [Bool.and_eq_true, Bool.or_eq_true, decide_eq_true_eq] at hcond
      obtain ⟨a, ha⟩ := Option.isSome_iff_exists.mp (htyped r hmem hcond.1 hcond.2)
      rw [Option.map_eq_none', List.find?_eq_none]
      intro z hz
      cases hd : isDiscarded z.d_name dp with
      | true => simp
      | false => simp [ha, hmiss r hmem hcond.1 a ha z hz hd]
    rw [hnone]
    rfl
  · intro e
    rfl
  · intro z qname addr pol
    refine ⟨?_, ?_, ?_, ?_, ?_⟩
    · intro h; rw [findQNamePolicy_miss_keeps z qname pol h]
    · intro h; rw [findNSPolicy_miss_keeps z qname pol h]
    · intro h; rw [findClientPolicy_miss_keeps z addr pol h]
    · intro h; rw [findNSIPPolicy_miss_keeps z addr pol h]
    · intro h; rw [findResponsePolicy_miss_keeps z addr pol h]

/-- Witness for C5: the only zone binds the query name but is named in the
discard map, so no eligible zone matches and the neutral policy comes back. -/
theorem neutral_policy_on_miss_witness :
    (∀ z ∈ ([{ d_name := some "blocked",
               d_qpolName := [((["example", "com"] : DNSName), ({ d_kind := .Drop } : Policy))] }]
            : List Zone),
      isDiscarded z.d_name [("blocked", true)] = false →
        (z.findQNamePolicy ["example", "com"] {}).1 = false ∧
        (z.findClientPolicy {} {}).1 = false) ∧
    DNSFilterEngine.getQueryPolicy
        { d_zones := List.map some
            [{ d_name := some "blocked",
               d_qpolName :=
                 [((["example", "com"] : DNSName), ({ d_kind := .Drop } : Policy))] }] }
        ["example", "com"] {} [("blocked", true)]
      = .ok { d_kind := .NoAction, d_type := .None, d_name := none } :=
  ⟨by decide,
   (neutral_policy_on_miss
      [{ d_name := some "blocked",
         d_qpolName := [((["example", "com"] : DNSName), ({ d_kind := .Drop } : Policy))] }]
      [("blocked", true)]).1 ["example", "com"] {} (by decide)⟩

/-- C6: zones are discarded by name. A zone is skipped exactly when it has a name
and that name is a key of the discard map, so each of the four `get*Policy` calls
gives, on any engine and discard map, the result of the same call with the empty
discard map on the engine from which the named discarded zones have been
removed; a zone without a name is never skipped, and when it is the first zone
and its lookup hits, its policy is the one returned, whatever the map holds. -/
theorem discard_by_name (e : DNSFilterEngine) (dp : DiscardedPolicies) :
    (∀ z : Zone, isDiscarded z.d_name dp = true ↔
      ∃ n, z.d_name = some n ∧ n ∈ dp.map Prod.fst) ∧
    (∀ (qname : DNSName) (ca : ComboAddress),
      e.getQueryPolicy qname ca dp = (e.withoutDiscarded dp).getQueryPolicy qname ca []) ∧
    (∀ (qname : DNSName),
      e.getProcessingPolicy qname dp = (e.withoutDiscarded dp).getProcessingPolicy qname []) ∧
    (∀ (address : ComboAddress),
      e.getProcessingPolicyAddr address dp =
        (e.withoutDiscarded dp).getProcessingPolicyAddr address []) ∧
    (∀ (records : List DNSRecord),
      e.getPostPolicy records dp = (e.withoutDiscarded dp).getPostPolicy records []) ∧
    (∀ z : Zone, z.d_name = none → isDiscarded z.d_name dp = false) ∧
    (∀ (z : Zone) (rest : List (Option Zone)) (qname : DNSName) (ca : ComboAddress)
        (found : Policy), z.d_name = none →
      (z.findQNamePolicy qname {} = (true, found) →
        DNSFilterEngine.getQueryPolicy { d_zones := some z :: rest } qname ca dp
          = .ok found) ∧
      (z.findNSPolicy qname {} = (true, found) →
        DNSFilterEngine.getProcessingPolicy { d_zones := some z :: rest } qname dp
          = .ok found) ∧
      (z.findNSIPPolicy ca {} = (true, found) →
        DNSFilterEngine.getProcessingPolicyAddr { d_zones := some z :: rest } ca dp
          = .ok found) ∧
      (∀ (r : DNSRecord) (others : List DNSRecord), r.d_place = Place.ANSWER →
        r.d_type = QType.A → getRR_A r = some ca →
        z.findResponsePolicy ca {} = (true, found) →
        DNSFilterEngine.getPostPolicy { d_zones := some z :: rest } (r :: others) dp
          = .ok found)) := by
  refine ⟨fun z => isDiscarded_iff z.d_name dp, ?_, ?_, ?_, ?_, ?_, ?_⟩
  · intro qname ca
    unfold DNSFilterEngine.getQueryPolicy
    rw [withoutDiscarded_zones]
    exact getQueryPolicy_scan_filter qname ca dp e.d_zones {}
  · intro qname
    unfold DNSFilterEngine.getProcessingPolicy
    rw [withoutDiscarded_zones, ← scanZones_filter]
  · intro address
    unfold DNSFilterEngine.getProcessingPolicyAddr
    rw [withoutDiscarded_zones, ← scanZones_filter]
  · intro records
    unfold DNSFilterEngine.getPostPolicy
    rw [withoutDiscarded_zones]
    exact getPostPolicy_records_filter e.d_zones dp records {} {}
  · intro z hz
    rw [hz]
    rfl
  · intro z rest qname ca found hz
    have hd : isDiscarded z.d_name dp = false := by rw [hz]; rfl
    refine ⟨?_, ?_, ?_, ?_⟩
    · intro h
      simp only [DNSFilterEngine.getQueryPolicy, DNSFilterEngine.getQueryPolicy.scan, hd, h,
        Bool.false_eq_true, if_false]
    · intro h
      simp only [DNSFilterEngine.getProcessingPolicy, scanZones, hd, h, Bool.false_eq_true,
        if_false]
    · intro h
      simp only [DNSFilterEngine.getProcessingPolicyAddr, scanZones, hd, h, Bool.false_eq_true,
        if_false]
    · intro r others hplace htype haddr h
      simp only [DNSFilterEngine.getPostPolicy, DNSFilterEngine.getPostPolicy.records, hplace,
        htype, haddr, ne_eq, not_true_eq_false, if_false, if_true, scanZones, hd, h,
        Bool.false_eq_true]

/-- Witness for C6: the zone named `a` is a key of the discard map (bound to
`false`) and is skipped, the zone without a name answers, just as on the engine
without the zone `a` and with the empty map. -/
theorem discard_by_name_witness :
    DNSFilterEngine.getQueryPolicy
        { d_zones :=
            [some { d_name := some "a",
                    d_qpolName := [((["example", "com"] : DNSName), ({ d_kind := .Drop } : Policy))] },
             some { d_name := none,
                    d_qpolName :=
                      [((["example", "com"] : DNSName), ({ d_kind := .NXDOMAIN } : Policy))] }] }
        ["example", "com"] {} [("a", false)]
      = .ok { d_kind := .NXDOMAIN } :=
  ((discard_by_name
      { d_zones :=
          [some { d_name := some "a",
                  d_qpolName := [((["example", "com"] : DNSName), ({ d_kind := .Drop } : Policy))] },
           some { d_name := none,
                  d_qpolName :=
                    [((["example", "com"] : DNSName), ({ d_kind := .NXDOMAIN } : Policy))] }] }
      [("a", false)]).2.1 ["example", "com"] {}).trans (by decide)

/-! ## Materialisation of a policy as a record -/

/-- C8: the wildcard rewrite of a custom `CNAME`. For a `Custom` policy whose
content is a `CNAME` with target `*.T` and any query name `q`, `getRecord` (through
`getCustomRecord`) returns a `CNAME` record at owner `q` whose target is `q`
followed by `T`: the leading `*` label is dropped from the stored target and the
query name put in front of the rest. The call only reads the policy, whose
stored content stays `*.T`. -/
theorem getRecord_custom_wildcard (p : Policy) (qname T : DNSName)
    (hkind : p.d_kind = PolicyKind.Custom)
    (hcustom : p.d_custom = some (.CNAME (g_wildcarddnsname ++ T))) :
    p.getRecord qname = .ok
        { d_name := qname
          d_type := QType.CNAME
          d_class := QClass.IN
          d_ttl := toUInt32 p.d_ttl
          d_place := Place.ANSWER
          d_content := some (.CNAME (qname ++ T)) } ∧
    p.getCustomRecord qname = p.getRecord qname ∧
    DNSName.isWildcard (g_wildcarddnsname ++ T) = true ∧
    p.d_custom = some (.CNAME (["*"] ++ T)) := by
  have hrec : p.getRecord qname = p.getCustomRecord qname := by
    unfold Policy.getRecord
    rw [if_pos hkind]
  refine ⟨?_, hrec.symm, rfl, hcustom⟩
  rw [hrec]
  unfold Policy.getCustomRecord
  rw [if_neg (not_not.mpr hkind), hcustom]
  rfl

/-- Witness for C8: stored target `*.example.org.` and query `foo.bar.` give the
target `foo.bar.example.org.`. -/
theorem getRecord_custom_wildcard_witness :
    Policy.getRecord
        { d_kind := .Custom, d_custom := some (.CNAME ["*", "example", "org"]), d_ttl := 60 }
        ["foo", "bar"]
      = .ok { d_name := ["foo", "bar"]
              d_type := QType.CNAME
              d_class := QClass.IN
              d_ttl := 60
              d_place := Place.ANSWER
              d_content := some (.CNAME ["foo", "bar", "example", "org"]) } :=
  (getRecord_custom_wildcard
    { d_kind := .Custom, d_custom := some (.CNAME ["*", "example", "org"]), d_ttl := 60 }
    ["foo", "bar"] ["example", "org"] rfl rfl).1

/-- C9: custom content that is not a wildcard `CNAME` is reused as it is. For a
`Custom` policy whose content is of another class than `CNAME`, or is a `CNAME`
whose target does not start with the label `*`, and any query name `q`,
`getRecord` returns the record with owner `q`, class `IN`, the type reported by
the stored content, the policy's ttl converted to unsigned 32 bits, and the
stored content unchanged. -/
theorem getRecord_custom_plain (p : Policy) (qname : DNSName) (custom : DNSRecordContent)
    (hkind : p.d_kind = PolicyKind.Custom) (hcustom : p.d_custom = some custom)
    (hplain : ∀ target, custom = .CNAME target → DNSName.isWildcard target = false) :
    p.getRecord qname = .ok
        { d_name := qname
          d_type := custom.getType
          d_class := QClass.IN
          d_ttl := toUInt32 p.d_ttl
          d_place := Place.ANSWER
          d_content := some custom } ∧
    ((toUInt32 p.d_ttl : Nat) : Int) = p.d_ttl % 4294967296 := by
  constructor
  · unfold Policy.getRecord
    rw [if_pos hkind]
    unfold Policy.getCustomRecord
    rw [if_neg (not_not.mpr hkind), hcustom]
    cases custom with
    | A ip => rfl
    | AAAA ip => rfl
    | CNAME target =>
      have hw := hplain target rfl
      simp only [DNSRecordContent.getType, if_true, hw, Bool.false_eq_true, if_false]
    | Unknown t text =>
      simp only [DNSRecordContent.getType]
      split <;> rfl
  · unfold toUInt32
    exact Int.toNat_of_nonneg (Int.emod_nonneg _ (by decide))

/-- Witness for C9: a custom `A` record with the ttl `-1`, which the TTL field
holds as `4294967295`. -/
theorem getRecord_custom_plain_witness :
    Policy.getRecord { d_kind := .Custom, d_custom := some (.A 3221225985), d_ttl := -1 }
        ["www", "example"]
      = .ok { d_name := ["www", "example"]
              d_type := QType.A
              d_class := QClass.IN
              d_ttl := 4294967295
              d_place := Place.ANSWER
              d_content := some (.A 3221225985) } :=
  (getRecord_custom_plain
    { d_kind := .Custom, d_custom := some (.A 3221225985), d_ttl := -1 }
    ["www", "example"] (.A 3221225985) rfl rfl
    (fun _ h => DNSRecordContent.noConfusion h)).1

/-- C10: `getCustomRecord` is for `Custom` policies only. For a policy that
carries a content whenever its kind is `Custom`, `getCustomRecord` fails exactly
when the kind is not `Custom`: for the five other kinds it raises the runtime
error, for `Custom` it returns a record. `getRecord`, which hands `Custom` to
`getCustomRecord` and the five other kinds to the magic-name mapping, returns a
record for each of the six kinds. -/
theorem getCustomRecord_fails_iff (p : Policy) (qname : DNSName)
    (hinv : p.d_kind = PolicyKind.Custom → p.d_custom.isSome = true) :
    ((∃ f, p.getCustomRecord qname = .error f) ↔ p.d_kind ≠ PolicyKind.Custom) ∧
    (p.d_kind ≠ PolicyKind.Custom →
      p.getCustomRecord qname = .error (.runtimeError
        "Asking for a custom record from a filtering policy of a non-custom type")) ∧
    (p.d_kind = PolicyKind.Custom → ∃ r, p.getCustomRecord qname = .ok r) ∧
    (∃ r, p.getRecord qname = .ok r) := by
  have hfail : p.d_kind ≠ PolicyKind.Custom →
      p.getCustomRecord qname = .error (.runtimeError
        "Asking for a custom record from a filtering policy of a non-custom type") := by
    intro h
    unfold Policy.getCustomRecord
    rw [if_pos h]
  have hok : p.d_kind = PolicyKind.Custom → ∃ r, p.getCustomRecord qname = .ok r := by
    intro h
    obtain ⟨custom, hc⟩ := Option.isSome_iff_exists.mp (hinv h)
    unfold Policy.getCustomRecord
    rw [if_neg (not_not.mpr h), hc]
    simp only
    split
    · split
      · split
        · exact ⟨_, rfl⟩
        · exact ⟨_, rfl⟩
      · exact ⟨_, rfl⟩
    · exact ⟨_, rfl⟩
  refine ⟨⟨?_, fun h => ⟨_, hfail h⟩⟩, hfail, hok, ?_⟩
  · rintro ⟨f, hf⟩ hk
    obtain ⟨r, hr⟩ := hok hk
    rw [hr] at hf
    exact Except.noConfusion hf
  · by_cases hk : p.d_kind = PolicyKind.Custom
    · unfold Policy.getRecord
      rw [if_pos hk]
      exact hok hk
    · unfold Policy.getRecord Policy.getKindToString
      rw [if_neg hk]
      cases hkind : p.d_kind with
      | Custom => exact absurd hkind hk
      | NoAction => exact ⟨_, rfl⟩
      | Drop => exact ⟨_, rfl⟩
      | NXDOMAIN => exact ⟨_, rfl⟩
      | NODATA => exact ⟨_, rfl⟩
      | Truncate => exact ⟨_, rfl⟩

/-- Witness for C10: a `Custom` policy carrying an `A` record has a custom
record, and `getRecord` returns a record for it. -/
theorem getCustomRecord_fails_iff_witness :
    (({ d_kind := .Custom, d_custom := some (.A 3221225985) } : Policy).d_kind
        = PolicyKind.Custom →
      ({ d_kind := .Custom, d_custom := some (.A 3221225985) } : Policy).d_custom.isSome
        = true) ∧
    (∃ r, Policy.getCustomRecord { d_kind := .Custom, d_custom := some (.A 3221225985) }
      ["example"] = .ok r) ∧
    ∃ r, Policy.getRecord { d_kind := .Custom, d_custom := some (.A 3221225985) }
      ["example"] = .ok r :=
  ⟨fun _ => rfl,
   (getCustomRecord_fails_iff { d_kind := .Custom, d_custom := some (.A 3221225985) }
      ["example"] (fun _ => rfl)).2.2.1 rfl,
   (getCustomRecord_fails_iff { d_kind := .Custom, d_custom := some (.A 3221225985) }
      ["example"] (fun _ => rfl)).2.2.2⟩

/-! ## Trigger tables -/

/-- After an assignment the key is bound to the assigned value. -/
theorem lookup_tableAssign_self {κ ν : Type} [BEq κ] [LawfulBEq κ] (table : List (κ × ν))
    (key : κ) (value : ν) : (tableAssign table key value).lookup key = some value := by
  induction table with
  | nil => simp [tableAssign, List.lookup]
  | cons x rest ih =>
    obtain ⟨k, v⟩ := x
    unfold tableAssign
    cases h : key == k with
    | true => simp [List.lookup, h]
    | false => simp [List.lookup, h, ih]

/-- An assignment leaves the binding of every other key as it was. -/
theorem lookup_tableAssign_other {κ ν : Type} [BEq κ] [LawfulBEq κ] (table : List (κ × ν))
    (key other : κ) (value : ν) (hne : other ≠ key) :
    (tableAssign table key value).lookup other = table.lookup other := by
  have hko : (other == key) = false := by simpa using hne
  induction table with
  | nil => simp [tableAssign, List.lookup, hko]
  | cons x rest ih =>
    obtain ⟨k, v⟩ := x
    unfold tableAssign
    cases h : key == k with
    | true =>
      have hk : key = k := eq_of_beq h
      subst hk
      simp [List.lookup, hko]
    | false =>
      simp only [Bool.false_eq_true, if_false, List.lookup_cons, ih]

/-- After an erase the key is unbound. -/
theorem lookup_tableErase_self {κ ν : Type} [BEq κ] [LawfulBEq κ] (table : List (κ × ν))
    (key : κ) : (tableErase table key).lookup key = none := by
  induction table with
  | nil => rfl
  | cons x rest ih =>
    obtain ⟨k, v⟩ := x
    unfold tableErase at ih ⊢
    rw [List.filter_cons]
    cases h : key == k with
    | true =>
      simp only [Bool.not_true, Bool.false_eq_true, if_false]
      exact ih
    | false => simp [List.lookup, h, ih]

/-- An erase leaves the binding of every other key as it was. -/
theorem lookup_tableErase_other {κ ν : Type} [BEq κ] [LawfulBEq κ] (table : List (κ × ν))
    (key other : κ) (hne : other ≠ key) :
    (tableErase table key).lookup other = table.lookup other := by
  induction table with
  | nil => rfl
  | cons x rest ih =>
    obtain ⟨k, v⟩ := x
    unfold tableErase at ih ⊢
    rw [List.filter_cons]
    cases h : key == k with
    | true =>
      have hk : key = k := eq_of_beq h
      subst hk
      have hko : (other == key) = false := by simpa using hne
      simp [List.lookup, hko, ih]
    | false =>
      simp only [Bool.not_false, if_true, List.lookup_cons, ih]

/-- Erasing a key that is not bound changes nothing. -/
theorem tableErase_absent {κ ν : Type} [BEq κ] [LawfulBEq κ] (table : List (κ × ν))
    (key : κ) (h : table.lookup key = none) : tableErase table key = table := by
  induction table with
  | nil => rfl
  | cons x rest ih =>
    obtain ⟨k, v⟩ := x
    unfold tableErase at ih ⊢
    rw [List.filter_cons]
    cases hk : key == k with
    | true => simp [List.lookup, hk] at h
    | false =>
      simp only [List.lookup_cons, hk] at h
      simp only [Bool.not_false, if_true, ih h]

/-- Erasing a key twice is erasing it once. -/
theorem tableErase_idem {κ ν : Type} [BEq κ] [LawfulBEq κ] (table : List (κ × ν))
    (key : κ) : tableErase (tableErase table key) key = tableErase table key :=
  tableErase_absent _ key (lookup_tableErase_self table key)

/-- The entries left by an erase are those whose key differs from the erased one. -/
theorem mem_tableErase {κ ν : Type} [BEq κ] [LawfulBEq κ] (table : List (κ × ν))
    (key : κ) (entry : κ × ν) :
    entry ∈ tableErase table key ↔ entry ∈ table ∧ entry.1 ≠ key := by
  unfold tableErase
  rw [List.mem_filter]
  constructor
  · rintro ⟨hm, hk⟩
    refine ⟨hm, fun h => ?_⟩
    simp [h] at hk
  · rintro ⟨hm, hk⟩
    refine ⟨hm, ?_⟩
    have : (key == entry.1) = false := by simpa using fun h => hk h.symm
    simp [this]

/-- C15: the five add operations. After `addQNameTrigger`, `addNSTrigger`,
`addClientTrigger`, `addNSIPTrigger` or `addResponseTrigger` the table of that
trigger kind binds the key to the draft policy with its zone name replaced by
the zone's and its type replaced by `QName`, `NSDName`, `ClientIP`, `NSIP` or
`ResponseIP`, with kind, ttl and custom content as in the draft, whatever the
draft carried in the two stamped fields and whatever was bound to the key
before; every other key of that table keeps its binding and the four other
tables are as they were. -/
theorem add_trigger_stamps (z : Zone) (pol : Policy) (n : DNSName) (nm : Netmask) :
    ((z.addQNameTrigger n pol).d_qpolName.lookup n =
        some { d_kind := pol.d_kind, d_type := PolicyType.QName, d_custom := pol.d_custom,
               d_name := z.d_name, d_ttl := pol.d_ttl } ∧
      (∀ other, other ≠ n →
        (z.addQNameTrigger n pol).d_qpolName.lookup other = z.d_qpolName.lookup other) ∧
      (z.addQNameTrigger n pol).d_propolName = z.d_propolName ∧
      (z.addQNameTrigger n pol).d_qpolAddr = z.d_qpolAddr ∧
      (z.addQNameTrigger n pol).d_propolNSAddr = z.d_propolNSAddr ∧
      (z.addQNameTrigger n pol).d_postpolAddr = z.d_postpolAddr) ∧
    ((z.addNSTrigger n pol).d_propolName.lookup n =
        some { d_kind := pol.d_kind, d_type := PolicyType.NSDName, d_custom := pol.d_custom,
               d_name := z.d_name, d_ttl := pol.d_ttl } ∧
      (∀ other, other ≠ n →
        (z.addNSTrigger n pol).d_propolName.lookup other = z.d_propolName.lookup other) ∧
      (z.addNSTrigger n pol).d_qpolName = z.d_qpolName ∧
      (z.addNSTrigger n pol).d_qpolAddr = z.d_qpolAddr ∧
      (z.addNSTrigger n pol).d_propolNSAddr = z.d_propolNSAddr ∧
      (z.addNSTrigger n pol).d_postpolAddr = z.d_postpolAddr) ∧
    (List.lookup nm (z.addClientTrigger nm pol).d_qpolAddr =
        some { d_kind := pol.d_kind, d_type := PolicyType.ClientIP, d_custom := pol.d_custom,
               d_name := z.d_name, d_ttl := pol.d_ttl } ∧
      (∀ other, other ≠ nm →
        List.lookup other (z.addClientTrigger nm pol).d_qpolAddr =
          List.lookup other z.d_qpolAddr) ∧
      (z.addClientTrigger nm pol).d_qpolName = z.d_qpolName ∧
      (z.addClientTrigger nm pol).d_propolName = z.d_propolName ∧
      (z.addClientTrigger nm pol).d_propolNSAddr = z.d_propolNSAddr ∧
      (z.addClientTrigger nm pol).d_postpolAddr = z.d_postpolAddr) ∧
    (List.lookup nm (z.addNSIPTrigger nm pol).d_propolNSAddr =
        some { d_kind := pol.d_kind, d_type := PolicyType.NSIP, d_custom := pol.d_custom,
               d_name := z.d_name, d_ttl := pol.d_ttl } ∧
      (∀ other, other ≠ nm →
        List.lookup other (z.addNSIPTrigger nm pol).d_propolNSAddr =
          List.lookup other z.d_propolNSAddr) ∧
      (z.addNSIPTrigger nm pol).d_qpolName = z.d_qpolName ∧
      (z.addNSIPTrigger nm pol).d_propolName = z.d_propolName ∧
      (z.addNSIPTrigger nm pol).d_qpolAddr = z.d_qpolAddr ∧
      (z.addNSIPTrigger nm pol).d_postpolAddr = z.d_postpolAddr) ∧
    (List.lookup nm (z.addResponseTrigger nm pol).d_postpolAddr =
        some { d_kind := pol.d_kind, d_type := PolicyType.ResponseIP, d_custom := pol.d_custom,
               d_name := z.d_name, d_ttl := pol.d_ttl } ∧
      (∀ other, other ≠ nm →
        List.lookup other (z.addResponseTrigger nm pol).d_postpolAddr =
          List.lookup other z.d_postpolAddr) ∧
      (z.addResponseTrigger nm pol).d_qpolName = z.d_qpolName ∧
      (z.addResponseTrigger nm pol).d_propolName = z.d_propolName ∧
      (z.addResponseTrigger nm pol).d_qpolAddr = z.d_qpolAddr ∧
      (z.addResponseTrigger nm pol).d_propolNSAddr = z.d_propolNSAddr) := by
  refine ⟨⟨?_, ?_, rfl, rfl, rfl, rfl⟩, ⟨?_, ?_, rfl, rfl, rfl, rfl⟩,
    ⟨?_, ?_, rfl, rfl, rfl, rfl⟩, ⟨?_, ?_, rfl, rfl, rfl, rfl⟩,
    ⟨?_, ?_, rfl, rfl, rfl, rfl⟩⟩
  · exact lookup_tableAssign_self z.d_qpolName n _
  · exact fun other h => lookup_tableAssign_other z.d_qpolName n other _ h
  · exact lookup_tableAssign_self z.d_propolName n _
  · exact fun other h => lookup_tableAssign_other z.d_propolName n other _ h
  · exact lookup_tableAssign_self z.d_qpolAddr nm _
  · exact fun other h => lookup_tableAssign_other z.d_qpolAddr nm other _ h
  · exact lookup_tableAssign_self z.d_propolNSAddr nm _
  · exact fun other h => lookup_tableAssign_other z.d_propolNSAddr nm other _ h
  · exact lookup_tableAssign_self z.d_postpolAddr nm _
  · exact fun other h => lookup_tableAssign_other z.d_postpolAddr nm other _ h

/-- Witness for C15: the zone `block` already binds `bad.example.`; the draft
claims another zone and the type `NSIP`, and is stored with the zone's name and
the type `QName`, in place of the old binding. -/
theorem add_trigger_stamps_witness :
    (Zone.addQNameTrigger
        { d_name := some "block",
          d_qpolName := [((["bad", "example"] : DNSName), ({ d_kind := .Drop } : Policy))] }
        ["bad", "example"]
        { d_kind := .NXDOMAIN, d_type := .NSIP, d_name := some "other", d_ttl := 30 }).d_qpolName
      = [((["bad", "example"] : DNSName),
          ({ d_kind := .NXDOMAIN, d_type := .QName, d_name := some "block", d_ttl := 30 }
            : Policy))] ∧
    (Zone.addQNameTrigger
        { d_name := some "block",
          d_qpolName := [((["bad", "example"] : DNSName), ({ d_kind := .Drop } : Policy))] }
        ["bad", "example"]
        { d_kind := .NXDOMAIN, d_type := .NSIP, d_name := some "other", d_ttl := 30 }
      ).d_qpolName.lookup ["bad", "example"]
      = some { d_kind := .NXDOMAIN, d_type := .QName, d_custom := none,
               d_name := some "block", d_ttl := 30 } :=
  ⟨by decide,
   (add_trigger_stamps
      { d_name := some "block",
        d_qpolName := [((["bad", "example"] : DNSName), ({ d_kind := .Drop } : Policy))] }
      { d_kind := .NXDOMAIN, d_type := .NSIP, d_name := some "other", d_ttl := 30 }
      ["bad", "example"] { d_network := {}, d_bits := 0 }).1.1⟩

/-- C16: the five remove operations. `rmQNameTrigger`, `rmNSTrigger`,
`rmClientTrigger`, `rmNSIPTrigger` and `rmResponseTrigger` report `true`; the
zone afterwards is the zone itself when the key is not bound, and otherwise
differs only in that the entry of that key is gone from the table of that
trigger kind, every other entry staying; the expected-policy argument plays no
part; and removing the same key again gives the same zone. -/
theorem rm_trigger_idempotent (z : Zone) (pol : Policy) (n : DNSName) (nm : Netmask) :
    ((z.rmQNameTrigger n pol).1 = true ∧
      (z.d_qpolName.lookup n = none → (z.rmQNameTrigger n pol).2 = z) ∧
      (z.rmQNameTrigger n pol).2.d_qpolName.lookup n = none ∧
      (∀ entry, entry ∈ (z.rmQNameTrigger n pol).2.d_qpolName ↔
        entry ∈ z.d_qpolName ∧ entry.1 ≠ n) ∧
      (z.rmQNameTrigger n pol).2 = { z with d_qpolName := (z.rmQNameTrigger n pol).2.d_qpolName } ∧
      (∀ expected, z.rmQNameTrigger n expected = z.rmQNameTrigger n pol) ∧
      (z.rmQNameTrigger n pol).2.rmQNameTrigger n pol = z.rmQNameTrigger n pol) ∧
    ((z.rmNSTrigger n pol).1 = true ∧
      (z.d_propolName.lookup n = none → (z.rmNSTrigger n pol).2 = z) ∧
      (z.rmNSTrigger n pol).2.d_propolName.lookup n = none ∧
      (∀ entry, entry ∈ (z.rmNSTrigger n pol).2.d_propolName ↔
        entry ∈ z.d_propolName ∧ entry.1 ≠ n) ∧
      (z.rmNSTrigger n pol).2 = { z with d_propolName := (z.rmNSTrigger n pol).2.d_propolName } ∧
      (∀ expected, z.rmNSTrigger n expected = z.rmNSTrigger n pol) ∧
      (z.rmNSTrigger n pol).2.rmNSTrigger n pol = z.rmNSTrigger n pol) ∧
    ((z.rmClientTrigger nm pol).1 = true ∧
      (List.lookup nm z.d_qpolAddr = none → (z.rmClientTrigger nm pol).2 = z) ∧
      List.lookup nm (z.rmClientTrigger nm pol).2.d_qpolAddr = none ∧
      (∀ entry, entry ∈ (z.rmClientTrigger nm pol).2.d_qpolAddr ↔
        entry ∈ z.d_qpolAddr ∧ entry.1 ≠ nm) ∧
      (z.rmClientTrigger nm pol).2 = { z with d_qpolAddr := (z.rmClientTrigger nm pol).2.d_qpolAddr } ∧
      (∀ expected, z.rmClientTrigger nm expected = z.rmClientTrigger nm pol) ∧
      (z.rmClientTrigger nm pol).2.rmClientTrigger nm pol = z.rmClientTrigger nm pol) ∧
    ((z.rmNSIPTrigger nm pol).1 = true ∧
      (List.lookup nm z.d_propolNSAddr = none → (z.rmNSIPTrigger nm pol).2 = z) ∧
      List.lookup nm (z.rmNSIPTrigger nm pol).2.d_propolNSAddr = none ∧
      (∀ entry, entry ∈ (z.rmNSIPTrigger nm pol).2.d_propolNSAddr ↔
        entry ∈ z.d_propolNSAddr ∧ entry.1 ≠ nm) ∧
      (z.rmNSIPTrigger nm pol).2 = { z with d_propolNSAddr := (z.rmNSIPTrigger nm pol).2.d_propolNSAddr } ∧
      (∀ expected, z.rmNSIPTrigger nm expected = z.rmNSIPTrigger nm pol) ∧
      (z.rmNSIPTrigger nm pol).2.rmNSIPTrigger nm pol = z.rmNSIPTrigger nm pol) ∧
    ((z.rmResponseTrigger nm pol).1 = true ∧
      (List.lookup nm z.d_postpolAddr = none → (z.rmResponseTrigger nm pol).2 = z) ∧
      List.lookup nm (z.rmResponseTrigger nm pol).2.d_postpolAddr = none ∧
      (∀ entry, entry ∈ (z.rmResponseTrigger nm pol).2.d_postpolAddr ↔
        entry ∈ z.d_postpolAddr ∧ entry.1 ≠ nm) ∧
      (z.rmResponseTrigger nm pol).2 = { z with d_postpolAddr := (z.rmResponseTrigger nm pol).2.d_postpolAddr } ∧
      (∀ expected, z.rmResponseTrigger nm expected = z.rmResponseTrigger nm pol) ∧
      (z.rmResponseTrigger nm pol).2.rmResponseTrigger nm pol = z.rmResponseTrigger nm pol) := by
  refine ⟨⟨rfl, ?_, ?_, ?_, rfl, fun _ => rfl, ?_⟩, ⟨rfl, ?_, ?_, ?_, rfl, fun _ => rfl, ?_⟩,
    ⟨rfl, ?_, ?_, ?_, rfl, fun _ => rfl, ?_⟩, ⟨rfl, ?_, ?_, ?_, rfl, fun _ => rfl, ?_⟩,
    ⟨rfl, ?_, ?_, ?_, rfl, fun _ => rfl, ?_⟩⟩
  · intro h
    simp only [Zone.rmQNameTrigger, tableErase_absent z.d_qpolName n h]
  · exact lookup_tableErase_self z.d_qpolName n
  · exact fun entry => mem_tableErase z.d_qpolName n entry
  · simp only [Zone.rmQNameTrigger, tableErase_idem]
  · intro h
    simp only [Zone.rmNSTrigger, tableErase_absent z.d_propolName n h]
  · exact lookup_tableErase_self z.d_propolName n
  · exact fun entry => mem_tableErase z.d_propolName n entry
  · simp only [Zone.rmNSTrigger, tableErase_idem]
  · intro h
    simp only [Zone.rmClientTrigger, tableErase_absent z.d_qpolAddr nm h]
  · exact lookup_tableErase_self z.d_qpolAddr nm
  · exact fun entry => mem_tableErase z.d_qpolAddr nm entry
  · simp only [Zone.rmClientTrigger, tableErase_idem]
  · intro h
    simp only [Zone.rmNSIPTrigger, tableErase_absent z.d_propolNSAddr nm h]
  · exact lookup_tableErase_self z.d_propolNSAddr nm
  · exact fun entry => mem_tableErase z.d_propolNSAddr nm entry
  · simp only [Zone.rmNSIPTrigger, tableErase_idem]
  · intro h
    simp only [Zone.rmResponseTrigger, tableErase_absent z.d_postpolAddr nm h]
  · exact lookup_tableErase_self z.d_postpolAddr nm
  · exact fun entry => mem_tableErase z.d_postpolAddr nm entry
  · simp only [Zone.rmResponseTrigger, tableErase_idem]

/-- Witness for C16: removing a key that was never added leaves the zone as it
is, and the stored `Drop` policy of `bad.example.` goes although the expected
policy handed in is an `NXDOMAIN` one. -/
theorem rm_trigger_idempotent_witness :
    List.lookup (["never", "added"] : DNSName)
        ({ d_qpolName := [((["bad", "example"] : DNSName), ({ d_kind := .Drop } : Policy))] }
          : Zone).d_qpolName = none ∧
    Zone.rmQNameTrigger
        { d_qpolName := [((["bad", "example"] : DNSName), ({ d_kind := .Drop } : Policy))] }
        ["never", "added"] {}
      = (true,
         { d_qpolName := [((["bad", "example"] : DNSName), ({ d_kind := .Drop } : Policy))] }) ∧
    Zone.rmQNameTrigger
        { d_qpolName := [((["bad", "example"] : DNSName), ({ d_kind := .Drop } : Policy))] }
        ["bad", "example"] { d_kind := .NXDOMAIN }
      = (true, {}) :=
  ⟨by decide,
   Prod.ext
    (rm_trigger_idempotent
      { d_qpolName := [((["bad", "example"] : DNSName), ({ d_kind := .Drop } : Policy))] }
      {} ["never", "added"] { d_network := {}, d_bits := 0 }).1.1
    ((rm_trigger_idempotent
      { d_qpolName := [((["bad", "example"] : DNSName), ({ d_kind := .Drop } : Policy))] }
      {} ["never", "added"] { d_network := {}, d_bits := 0 }).1.2.1 (by decide)),
   by decide⟩

/-- C17: `assureZones` grows the slot list. After `assureZones n` the list has
length `max (previous length) (n + 1)`, so `n` is a valid index; every slot that
existed keeps its content and position, every new slot is empty; when `n` was
already a valid index nothing changes, and a second call with the same `n`
changes nothing. -/
theorem assureZones_grows (e : DNSFilterEngine) (n : Nat) :
    (e.assureZones n).d_zones.length = max e.d_zones.length (n + 1) ∧
    n < (e.assureZones n).d_zones.length ∧
    (∀ i, i < e.d_zones.length → (e.assureZones n).d_zones[i]? = e.d_zones[i]?) ∧
    (∀ i, e.d_zones.length ≤ i → i < (e.assureZones n).d_zones.length →
      (e.assureZones n).d_zones[i]? = some none) ∧
    (n < e.d_zones.length → e.assureZones n = e) ∧
    (e.assureZones n).assureZones n = e.assureZones n := by
  have hlen : (e.assureZones n).d_zones.length = max e.d_zones.length (n + 1) := by
    unfold DNSFilterEngine.assureZones
    split
    · simp only [List.length_append, List.length_replicate]
      omega
    · omega
  have hkeep : ∀ e1 : DNSFilterEngine, n < e1.d_zones.length → e1.assureZones n = e1 := by
    intro e1 h
    unfold DNSFilterEngine.assureZones
    rw [if_neg (by omega)]
  refine ⟨hlen, by omega, ?_, ?_, hkeep e, hkeep (e.assureZones n) (by omega)⟩
  · intro i hi
    unfold DNSFilterEngine.assureZones
    split
    · exact List.getElem?_append_left hi
    · rfl
  · intro i hi hlt
    rw [hlen] at hlt
    unfold DNSFilterEngine.assureZones
    split
    · simp only
      rw [List.getElem?_append_right hi, List.getElem?_replicate]
      rw [if_pos (by omega)]
    · omega

/-- Witness for C17: on the empty engine `assureZones 2` makes three empty
slots, and a zone slot already at index `0` is kept by `assureZones 1`. -/
theorem assureZones_grows_witness :
    DNSFilterEngine.assureZones {} 2 = { d_zones := [none, none, none] } ∧
    (DNSFilterEngine.assureZones { d_zones := [some {}] } 1).d_zones.length = 2 ∧
    (0 < ({ d_zones := [some {}] } : DNSFilterEngine).d_zones.length →
      DNSFilterEngine.assureZones { d_zones := [some {}] } 0 = { d_zones := [some {}] }) :=
  ⟨by decide, (assureZones_grows { d_zones := [some {}] } 1).1,
   (assureZones_grows { d_zones := [some {}] } 0).2.2.2.2.1⟩

/-- C19 as stated fails for the query name `S` itself: the table holds the single
key `*.example.com.`, so no key is more specific, and the query `example.com.`
finds nothing (the walk only forms wildcard names over proper suffixes of the
query), while `www.example.com.` gets the policy. -/
theorem wildcard_key_covers_suffix_counterexample :
    List.lookup (g_wildcarddnsname ++ (["example", "com"] : DNSName))
        [((["*", "example", "com"] : DNSName), ({ d_kind := .Drop } : Policy))]
      = some { d_kind := .Drop } ∧
    Zone.findNamedPolicy
        [((["*", "example", "com"] : DNSName), ({ d_kind := .Drop } : Policy))]
        ["example", "com"] {}
      = (false, {}) ∧
    Zone.findNamedPolicy
        [((["*", "example", "com"] : DNSName), ({ d_kind := .Drop } : Policy))]
        ["www", "example", "com"] {}
      = (true, { d_kind := .Drop }) := by
  decide

/-- C19 (amended): a wildcard key `*.S` stands for everything strictly under `S`.
When the table holds the key `*.S` and no key that is more specific for the
query (neither the query name itself nor a wildcard over a longer proper suffix
of it), `findNamedPolicy` returns the policy stored at `*.S` for every query name
that has `S` as a proper suffix. For the query name `S` itself the key `*.S` is
not consulted: unless `S` is a key or a wildcard over a proper suffix of `S` is
present, the lookup misses. -/
theorem wildcard_key_covers_subdomains (polmap : List (DNSName × Policy)) (S : DNSName)
    (pol found : Policy)
    (hkey : polmap.lookup (g_wildcarddnsname ++ S) = some found) :
    (∀ front : DNSName, front ≠ [] →
      polmap.lookup (front ++ S) = none →
      (∀ j, 1 ≤ j → j < front.length →
        polmap.lookup (g_wildcarddnsname ++ (front ++ S).drop j) = none) →
      Zone.findNamedPolicy polmap (front ++ S) pol = (true, found)) ∧
    (polmap.lookup S = none →
      (∀ k, 1 ≤ k → k ≤ S.length → polmap.lookup (g_wildcarddnsname ++ S.drop k) = none) →
      Zone.findNamedPolicy polmap S pol = (false, pol)) := by
  constructor
  · intro front hfront hq hspec
    unfold Zone.findNamedPolicy
    rw [hq]
    have hlen : 1 ≤ front.length := by
      cases front with
      | nil => exact absurd rfl hfront
      | cons a rest => simp
    refine walk_hit polmap pol (front ++ S) front.length found hlen (by simp) ?_ hspec
    rw [List.drop_left]
    exact hkey
  · intro hq hnone
    unfold Zone.findNamedPolicy
    rw [hq]
    exact walk_miss_keeps polmap S pol ((walk_miss_iff polmap pol S).mpr hnone)

/-- Witness for C19: with `*.example.com.` in the table, the query
`a.b.example.com.`, two labels below the suffix, gets its policy. -/
theorem wildcard_key_covers_subdomains_witness :
    List.lookup (g_wildcarddnsname ++ (["example", "com"] : DNSName))
        [((["*", "com"] : DNSName), ({ d_kind := .NODATA } : Policy)),
         ((["*", "example", "com"] : DNSName), ({ d_kind := .Drop } : Policy))]
      = some { d_kind := .Drop } ∧
    Zone.findNamedPolicy
        [((["*", "com"] : DNSName), ({ d_kind := .NODATA } : Policy)),
         ((["*", "example", "com"] : DNSName), ({ d_kind := .Drop } : Policy))]
        ["a", "b", "example", "com"] {}
      = (true, { d_kind := .Drop }) :=
  ⟨by decide,
   (wildcard_key_covers_subdomains
      [((["*", "com"] : DNSName), ({ d_kind := .NODATA } : Policy)),
       ((["*", "example", "com"] : DNSName), ({ d_kind := .Drop } : Policy))]
      ["example", "com"] {} { d_kind := .Drop } (by decide)).1 ["a", "b"] (by decide)
      (by decide) (by decide)⟩

/-- C20: only the keys of the discard map matter. For two discard maps with the
same keys each of the four `get*Policy` calls returns the same result on every
engine and input, whatever booleans are stored under the keys; a zone whose name
is bound to `false` is skipped just like one bound to `true`. -/
theorem discard_values_ignored (e : DNSFilterEngine) (dp1 dp2 : DiscardedPolicies)
    (hkeys : ∀ n, n ∈ dp1.map Prod.fst ↔ n ∈ dp2.map Prod.fst) :
    (∀ (qname : DNSName) (ca : ComboAddress),
      e.getQueryPolicy qname ca dp1 = e.getQueryPolicy qname ca dp2) ∧
    (∀ (qname : DNSName), e.getProcessingPolicy qname dp1 = e.getProcessingPolicy qname dp2) ∧
    (∀ (address : ComboAddress),
      e.getProcessingPolicyAddr address dp1 = e.getProcessingPolicyAddr address dp2) ∧
    (∀ (records : List DNSRecord), e.getPostPolicy records dp1 = e.getPostPolicy records dp2) ∧
    (∀ name : Option String, isDiscarded name dp1 = isDiscarded name dp2) ∧
    (∀ (n : String) (rest : DiscardedPolicies),
      isDiscarded (some n) ((n, false) :: rest) = true ∧
      isDiscarded (some n) ((n, true) :: rest) = true) := by
  have hdisc : ∀ name : Option String, isDiscarded name dp1 = isDiscarded name dp2 := by
    intro name
    rw [Bool.eq_iff_iff, isDiscarded_iff, isDiscarded_iff]
    constructor
    · rintro ⟨n, h1, h2⟩
      exact ⟨n, h1, (hkeys n).mp h2⟩
    · rintro ⟨n, h1, h2⟩
      exact ⟨n, h1, (hkeys n).mpr h2⟩
  have hkeep : (fun slot : Option Zone =>
        match slot with
        | some z => !isDiscarded z.d_name dp1
        | none => true) =
      (fun slot : Option Zone =>
        match slot with
        | some z => !isDiscarded z.d_name dp2
        | none => true) := by
    funext slot
    cases slot with
    | none => rfl
    | some z => simp only [hdisc]
  refine ⟨?_, ?_, ?_, ?_, hdisc, ?_⟩
  · intro qname ca
    unfold DNSFilterEngine.getQueryPolicy
    rw [getQueryPolicy_scan_filter qname ca dp1, getQueryPolicy_scan_filter qname ca dp2, hkeep]
  · intro qname
    unfold DNSFilterEngine.getProcessingPolicy
    rw [scanZones_filter _ dp1, scanZones_filter _ dp2, hkeep]
  · intro address
    unfold DNSFilterEngine.getProcessingPolicyAddr
    rw [scanZones_filter _ dp1, scanZones_filter _ dp2, hkeep]
  · intro records
    unfold DNSFilterEngine.getPostPolicy
    rw [getPostPolicy_records_filter e.d_zones dp1, getPostPolicy_records_filter e.d_zones dp2,
      hkeep]
  · intro n rest
    constructor <;> simp [isDiscarded, List.lookup]

/-- Witness for C20: the zone `a` is skipped both under the map binding `a` to
`true` and under the map binding it to `false`. -/
theorem discard_values_ignored_witness :
    (∀ n, n ∈ ([("a", true)] : DiscardedPolicies).map Prod.fst ↔
      n ∈ ([("a", false)] : DiscardedPolicies).map Prod.fst) ∧
    DNSFilterEngine.getProcessingPolicy
        { d_zones :=
            [some { d_name := some "a",
                    d_propolName :=
                      [((["ns", "example"] : DNSName), ({ d_kind := .Drop } : Policy))] }] }
        ["ns", "example"] [("a", true)]
      = DNSFilterEngine.getProcessingPolicy
        { d_zones :=
            [some { d_name := some "a",
                    d_propolName :=
                      [((["ns", "example"] : DNSName), ({ d_kind := .Drop } : Policy))] }] }
        ["ns", "example"] [("a", false)] ∧
    DNSFilterEngine.getProcessingPolicy
        { d_zones :=
            [some { d_name := some "a",
                    d_propolName :=
                      [((["ns", "example"] : DNSName), ({ d_kind := .Drop } : Policy))] }] }
        ["ns", "example"] [("a", false)]
      = .ok {} :=
  ⟨fun _ => Iff.rfl,
   (discard_values_ignored
      { d_zones :=
          [some { d_name := some "a",
                  d_propolName :=
                    [((["ns", "example"] : DNSName), ({ d_kind := .Drop } : Policy))] }] }
      [("a", true)] [("a", false)] (fun _ => Iff.rfl)).2.1 ["ns", "example"],
   by decide⟩

/-! ## Address-name codec -/

/-- No digit character is a dot, a colon or the letter `z`. -/
theorem digitChar_plain (k : Nat) :
    Nat.digitChar k ≠ '.' ∧ Nat.digitChar k ≠ ':' ∧ Nat.digitChar k ≠ 'z' := by
  have small : ∀ j < 16,
      Nat.digitChar j ≠ '.' ∧ Nat.digitChar j ≠ ':' ∧ Nat.digitChar j ≠ 'z' := by
    decide
  by_cases h : k < 16
  · exact small k h
  · have hstar : Nat.digitChar k = '*' := by
      unfold Nat.digitChar
      rw [if_neg (show ¬k = 0 by omega)]
      rw [if_neg (show ¬k = 1 by omega)]
      rw [if_neg (show ¬k = 2 by omega)]
      rw [if_neg (show ¬k = 3 by omega)]
      rw [if_neg (show ¬k = 4 by omega)]
      rw [if_neg (show ¬k = 5 by omega)]
      rw [if_neg (show ¬k = 6 by omega)]
      rw [if_neg (show ¬k = 7 by omega)]
      rw [if_neg (show ¬k = 8 by omega)]
      rw [if_neg (show ¬k = 9 by omega)]
      rw [if_neg (show ¬k = 10 by omega)]
      rw [if_neg (show ¬k = 11 by omega)]
      rw [if_neg (show ¬k = 12 by omega)]
      rw [if_neg (show ¬k = 13 by omega)]
      rw [if_neg (show ¬k = 14 by omega)]
      rw [if_neg (show ¬k = 15 by omega)]
    rw [hstar]
    decide

/-- The digits produced by `Nat.toDigitsCore` are digit characters. -/
theorem toDigitsCore_chars (base : Nat) :
    ∀ (fuel n : Nat) (ds : List Char), (∀ c ∈ ds, ∃ k, c = Nat.digitChar k) →
      ∀ c ∈ Nat.toDigitsCore base fuel n ds, ∃ k, c = Nat.digitChar k := by
  intro fuel
  induction fuel with
  | zero => intro n ds h; simpa [Nat.toDigitsCore] using h
  | succ fuel ih =>
    intro n ds h
    have hds : ∀ c ∈ Nat.digitChar (n % base) :: ds, ∃ k, c = Nat.digitChar k := by
      intro c hc
      rcases List.mem_cons.mp hc with rfl | hc
      · exact ⟨_, rfl⟩
      · exact h c hc
    unfold Nat.toDigitsCore
    simp only
    split
    · exact hds
    · exact ih (n / base) _ hds

/-- The digits produced by `Nat.toDigitsCore` extend the digits already there. -/
theorem toDigitsCore_ne_nil (base : Nat) :
    ∀ (fuel n : Nat) (ds : List Char), ds ≠ [] → Nat.toDigitsCore base fuel n ds ≠ [] := by
  intro fuel
  induction fuel with
  | zero => intro n ds h; simpa [Nat.toDigitsCore] using h
  | succ fuel ih =>
    intro n ds _
    unfold Nat.toDigitsCore
    simp only
    split
    · exact List.cons_ne_nil _ _
    · exact ih (n / base) _ (List.cons_ne_nil _ _)

/-- A number has at least one digit, and its digits are digit characters. -/
theorem toDigits_plain (base n : Nat) :
    Nat.toDigits base n ≠ [] ∧ ∀ c ∈ Nat.toDigits base n, c ≠ '.' ∧ c ≠ ':' ∧ c ≠ 'z' := by
  constructor
  · unfold Nat.toDigits Nat.toDigitsCore
    simp only
    split
    · exact List.cons_ne_nil _ _
    · exact toDigitsCore_ne_nil base n (n / base) _ (List.cons_ne_nil _ _)
  · intro c hc
    obtain ⟨k, rfl⟩ := toDigitsCore_chars base (n + 1) n [] (by simp) c hc
    exact digitChar_plain k

/-- One step of the label splitter on a non-empty text. -/
theorem parseLabels_cons (c : Char) (cs cur : List Char) :
    DNSName.parseLabels (c :: cs) cur =
      if c = '.' then
        match cur with
        | [] => .error (.runtimeError "empty label in name")
        | _ =>
          match DNSName.parseLabels cs [] with
          | .ok rest => .ok (String.mk cur.reverse :: rest)
          | .error e => .error e
      else DNSName.parseLabels cs (c :: cur) := by
  cases cur <;> rfl

/-- The characters of a label are pushed onto the label being read. -/
theorem parseLabels_plain (rest : List Char) :
    ∀ (l cur : List Char), '.' ∉ l →
      DNSName.parseLabels (l ++ rest) cur = DNSName.parseLabels rest (l.reverse ++ cur) := by
  intro l
  induction l with
  | nil => intro cur _; rfl
  | cons c l ih =>
    intro cur h
    have hc : c ≠ '.' := fun e => h (by simp [e])
    have hl : '.' ∉ l := fun e => h (List.mem_cons_of_mem _ e)
    rw [List.cons_append, parseLabels_cons, if_neg hc, ih (c :: cur) hl]
    simp

/-- A text without dots is one label. -/
theorem parseLabels_last (l : List Char) (hne : l ≠ []) (hdot : '.' ∉ l) :
    DNSName.parseLabels l [] = .ok [String.mk l] := by
  have h := parseLabels_plain [] l [] hdot
  rw [List.append_nil, List.append_nil] at h
  rw [h]
  cases hr : l.reverse with
  | nil => exact absurd (List.reverse_eq_nil_iff.mp hr) hne
  | cons c cur =>
    have hmk : (c :: cur).reverse = l := by rw [← hr, List.reverse_reverse]
    show Except.ok [String.mk (c :: cur).reverse] = _
    rw [hmk]

/-- A label followed by a dot is split off. -/
theorem parseLabels_dot (l rest : List Char) (hne : l ≠ []) (hdot : '.' ∉ l) :
    DNSName.parseLabels (l ++ '.' :: rest) [] =
      match DNSName.parseLabels rest [] with
      | .ok labels => .ok (String.mk l :: labels)
      | .error e => .error e := by
  rw [parseLabels_plain ('.' :: rest) l [] hdot, List.append_nil]
  cases hr : l.reverse with
  | nil => exact absurd (List.reverse_eq_nil_iff.mp hr) hne
  | cons c cur =>
    have hmk : (c :: cur).reverse = l := by rw [← hr, List.reverse_reverse]
    rw [parseLabels_cons, if_pos rfl]
    simp only
    rw [hmk]

/-- A non-empty text without dots is the name of that one label. -/
theorem parse_plain (s : String) (hne : s.toList ≠ []) (hdot : '.' ∉ s.toList) :
    DNSName.parse s = .ok [s] := by
  unfold DNSName.parse
  have h1 : s ≠ "" := fun e => hne (by rw [e]; rfl)
  have h2 : s ≠ "." := fun e => hdot (by rw [e]; decide)
  rw [if_neg (not_or.mpr ⟨h1, h2⟩)]
  have hmk : String.mk s.toList = s := rfl
  rw [parseLabels_last s.toList hne hdot, hmk]

/-- The decimal form of a number has a digit, and no dot, colon or `z` in it. -/
theorem to_string_plain (n : Nat) :
    (to_string n).toList ≠ [] ∧
      ∀ c ∈ (to_string n).toList, c ≠ '.' ∧ c ≠ ':' ∧ c ≠ 'z' := by
  have h := toDigits_plain 10 n
  unfold to_string Nat.repr
  simpa [List.asString] using h

/-- The decimal form of a number is the name of that one label. -/
theorem parse_to_string (n : Nat) : DNSName.parse (to_string n) = .ok [to_string n] :=
  parse_plain _ (to_string_plain n).1 (fun h => ((to_string_plain n).2 _ h).1 rfl)

/-- Four dot-free texts joined by dots are the name of those four labels. -/
theorem parse_dotted_quad (s1 s2 s3 s4 : String)
    (h1 : s1.toList ≠ [] ∧ '.' ∉ s1.toList) (h2 : s2.toList ≠ [] ∧ '.' ∉ s2.toList)
    (h3 : s3.toList ≠ [] ∧ '.' ∉ s3.toList) (h4 : s4.toList ≠ [] ∧ '.' ∉ s4.toList) :
    DNSName.parse (s1 ++ "." ++ s2 ++ "." ++ s3 ++ "." ++ s4) = .ok [s1, s2, s3, s4] := by
  have hlist : (s1 ++ "." ++ s2 ++ "." ++ s3 ++ "." ++ s4).toList =
      s1.toList ++ '.' :: (s2.toList ++ '.' :: (s3.toList ++ '.' :: s4.toList)) := by
    simp [String.toList]
  unfold DNSName.parse
  have hne : ¬((s1 ++ "." ++ s2 ++ "." ++ s3 ++ "." ++ s4) = "" ∨
      (s1 ++ "." ++ s2 ++ "." ++ s3 ++ "." ++ s4) = ".") := by
    have hpos : 0 < s1.toList.length := List.length_pos.mpr h1.1
    rintro (e | e)
    · have := congrArg (fun t => t.toList.length) e
      simp only [hlist] at this
      simp at this
    · have := congrArg (fun t => t.toList.length) e
      simp only [hlist] at this
      simp at this
      omega
  rw [if_neg hne, hlist, parseLabels_dot _ _ h1.1 h1.2, parseLabels_dot _ _ h2.1 h2.2,
    parseLabels_dot _ _ h3.1 h3.2, parseLabels_last _ h4.1 h4.2]
  rfl

/-- The IPv4 branch of `maskToRPZ`: the bit length, then the four octets from
`bytes[3]` to `bytes[0]`, whatever text function is supplied. -/
theorem maskToRPZ_v4 (addrToString : ComboAddress → String) (nm : Netmask)
    (hv4 : nm.d_network.isIPv4 = true) :
    Zone.maskToRPZ addrToString nm =
      .ok [to_string nm.d_bits, to_string (nm.d_network.byte 3),
        to_string (nm.d_network.byte 2), to_string (nm.d_network.byte 1),
        to_string (nm.d_network.byte 0)] := by
  have hq : ∀ n : Nat, (to_string n).toList ≠ [] ∧ '.' ∉ (to_string n).toList :=
    fun n => ⟨(to_string_plain n).1, fun h => ((to_string_plain n).2 _ h).1 rfl⟩
  unfold Zone.maskToRPZ
  simp only [parse_to_string, hv4, if_true,
    parse_dotted_quad _ _ _ _ (hq _) (hq _) (hq _) (hq _)]
  rfl

/-- The octets of `a.b.c.d` read back from the address. -/
theorem byte_of_octets (a b c d : Nat) (ha : a < 256) (hb : b < 256) (hc : c < 256)
    (hd : d < 256) (v4 : Bool) :
    ComboAddress.byte { isIPv4 := v4, addr := a * 16777216 + b * 65536 + c * 256 + d } 0 = a ∧
    ComboAddress.byte { isIPv4 := v4, addr := a * 16777216 + b * 65536 + c * 256 + d } 1 = b ∧
    ComboAddress.byte { isIPv4 := v4, addr := a * 16777216 + b * 65536 + c * 256 + d } 2 = c ∧
    ComboAddress.byte { isIPv4 := v4, addr := a * 16777216 + b * 65536 + c * 256 + d } 3 = d := by
  unfold ComboAddress.byte
  simp only [Nat.shiftRight_eq_div_pow]
  refine ⟨?_, ?_, ?_, ?_⟩ <;> norm_num <;> omega

/-- An address below `2 ^ 32` is made of its four octets. -/
theorem addr_of_bytes (a : ComboAddress) (h : a.addr < 4294967296) :
    ((a.byte 0 * 256 + a.byte 1) * 256 + a.byte 2) * 256 + a.byte 3 = a.addr := by
  unfold ComboAddress.byte
  simp only [Nat.shiftRight_eq_div_pow]
  norm_num
  omega

set_option maxRecDepth 1000000 in
/-- Reading the decimal form of an octet or bit length gives the number back. -/
theorem decodeDecimal_to_string : ∀ n < 256, decodeDecimal (to_string n) = n := by
  decide

/-- C11: the IPv4 encoding of `maskToRPZ`. For the block `a.b.c.d/n`, `a` being the
first octet in network order, the name returned has the five labels `n`, `d`,
`c`, `b`, `a` in decimal: the bit length followed by the octets in reversed
network order. -/
theorem maskToRPZ_v4_reversed (addrToString : ComboAddress → String) (a b c d n : Nat)
    (ha : a < 256) (hb : b < 256) (hc : c < 256) (hd : d < 256) :
    Zone.maskToRPZ addrToString
        { d_network := { isIPv4 := true, addr := a * 16777216 + b * 65536 + c * 256 + d },
          d_bits := n }
      = .ok [to_string n, to_string d, to_string c, to_string b, to_string a] := by
  obtain ⟨h0, h1, h2, h3⟩ := byte_of_octets a b c d ha hb hc hd true
  rw [maskToRPZ_v4 addrToString _ rfl]
  simp only [h0, h1, h2, h3]

/-- Witness for C11: `10.0.0.0/8` is encoded as `8.0.0.0.10`. -/
theorem maskToRPZ_v4_reversed_witness :
    Zone.maskToRPZ ComboAddress.toString
        { d_network := { isIPv4 := true, addr := 10 * 16777216 + 0 * 65536 + 0 * 256 + 0 },
          d_bits := 8 }
      = .ok ["8", "0", "0", "0", "10"] :=
  maskToRPZ_v4_reversed ComboAddress.toString 10 0 0 0 8 (by decide) (by decide) (by decide)
    (by decide)

/-- C14: `maskToRPZ` can be inverted on IPv4 blocks. For two IPv4 blocks (32-bit
address, at most 32 bits of length; host bits zero or not) equal names come from
equal blocks only, the decoder `rpzToNetmask4` gives the block back from the
name, and the name is a function of the block alone: equal blocks give equal
names and the text function supplied plays no part. -/
theorem maskToRPZ_v4_invertible (addrToString : ComboAddress → String) (nm1 nm2 : Netmask)
    (h1 : nm1.d_network.isIPv4 = true) (h2 : nm2.d_network.isIPv4 = true)
    (r1 : nm1.d_network.addr < 4294967296) (r2 : nm2.d_network.addr < 4294967296)
    (b1 : nm1.d_bits ≤ 32) (b2 : nm2.d_bits ≤ 32) :
    (Zone.maskToRPZ addrToString nm1 = Zone.maskToRPZ addrToString nm2 →
      nm1.d_bits = nm2.d_bits ∧ nm1.d_network = nm2.d_network) ∧
    (∃ name, Zone.maskToRPZ addrToString nm1 = .ok name ∧ rpzToNetmask4 name = some nm1) ∧
    (nm1 = nm2 → Zone.maskToRPZ addrToString nm1 = Zone.maskToRPZ addrToString nm2) ∧
    (∀ other : ComboAddress → String,
      Zone.maskToRPZ other nm1 = Zone.maskToRPZ addrToString nm1) := by
  have hbyte : ∀ (a : ComboAddress) (i : Nat), a.byte i < 256 := by
    intro a i
    unfold ComboAddress.byte
    exact Nat.mod_lt _ (by decide)
  have hdecode : ∀ nm : Netmask, nm.d_network.isIPv4 = true →
      nm.d_network.addr < 4294967296 → nm.d_bits ≤ 32 →
      rpzToNetmask4 [to_string nm.d_bits, to_string (nm.d_network.byte 3),
        to_string (nm.d_network.byte 2), to_string (nm.d_network.byte 1),
        to_string (nm.d_network.byte 0)] = some nm := by
    intro nm hv4 hr hb
    obtain ⟨⟨v4, addr⟩, bits⟩ := nm
    simp only at hv4 hr hb
    subst hv4
    have haddr := addr_of_bytes { isIPv4 := true, addr := addr } hr
    simp only at haddr
    simp only [rpzToNetmask4, decodeDecimal_to_string _ (hbyte _ _),
      decodeDecimal_to_string bits (by omega), haddr]
  refine ⟨?_, ⟨_, maskToRPZ_v4 addrToString nm1 h1, hdecode nm1 h1 r1 b1⟩, ?_, ?_⟩
  · intro heq
    rw [maskToRPZ_v4 addrToString nm1 h1, maskToRPZ_v4 addrToString nm2 h2] at heq
    have hnames := Except.ok.inj heq
    have hd1 := hdecode nm1 h1 r1 b1
    rw [hnames, hdecode nm2 h2 r2 b2] at hd1
    have hnm : nm2 = nm1 := Option.some.inj hd1
    rw [hnm]
    exact ⟨rfl, rfl⟩
  · intro heq
    rw [heq]
  · intro other
    rw [maskToRPZ_v4 other nm1 h1, maskToRPZ_v4 addrToString nm1 h1]

/-- Witness for C14: `192.0.2.0/24` is encoded as `24.0.2.0.192`, the decoder gives
the block back, and so no other block has that name. -/
theorem maskToRPZ_v4_invertible_witness :
    ((3221225984 : Nat) < 4294967296 ∧ (24 : Nat) ≤ 32) ∧
    Zone.maskToRPZ ComboAddress.toString
        { d_network := { isIPv4 := true, addr := 3221225984 }, d_bits := 24 }
      = .ok ["24", "0", "2", "0", "192"] ∧
    ∃ name,
      Zone.maskToRPZ ComboAddress.toString
          { d_network := { isIPv4 := true, addr := 3221225984 }, d_bits := 24 }
        = .ok name ∧
      rpzToNetmask4 name
        = some { d_network := { isIPv4 := true, addr := 3221225984 }, d_bits := 24 } :=
  ⟨by decide, by decide,
   (maskToRPZ_v4_invertible ComboAddress.toString
      { d_network := { isIPv4 := true, addr := 3221225984 }, d_bits := 24 }
      { d_network := { isIPv4 := true, addr := 3221225984 }, d_bits := 24 }
      rfl rfl (by decide) (by decide) (by decide) (by decide)).2.1⟩

/-- The piece in front of the first colon, and the text from that colon on. -/
theorem span_colon (l r : List Char) (h : ':' ∉ l) :
    (l ++ ':' :: r).takeWhile (fun c => c != ':') = l ∧
    (l ++ ':' :: r).dropWhile (fun c => c != ':') = ':' :: r := by
  induction l with
  | nil => simp [List.takeWhile, List.dropWhile]
  | cons c l ih =>
    have hc : (c != ':') = true := by
      simp only [bne_iff_ne, ne_eq]
      exact fun e => h (by simp [e])
    have hl : ':' ∉ l := fun e => h (List.mem_cons_of_mem _ e)
    rw [List.cons_append, List.takeWhile_cons, List.dropWhile_cons]
    simp only [hc, if_true]
    exact ⟨by rw [(ih hl).1], (ih hl).2⟩

/-- A text without colon is a single piece. -/
theorem span_no_colon (l : List Char) (h : ':' ∉ l) :
    l.takeWhile (fun c => c != ':') = l ∧ l.dropWhile (fun c => c != ':') = [] := by
  induction l with
  | nil => simp
  | cons c l ih =>
    have hc : (c != ':') = true := by
      simp only [bne_iff_ne, ne_eq]
      exact fun e => h (by simp [e])
    have hl : ':' ∉ l := fun e => h (List.mem_cons_of_mem _ e)
    rw [List.takeWhile_cons, List.dropWhile_cons]
    simp only [hc, if_true]
    exact ⟨by rw [(ih hl).1], (ih hl).2⟩

/-- Characters of the accumulator form of `String.intercalate`. -/
theorem intercalate_go_toList (sep : String) :
    ∀ (l : List String) (acc : String),
      (String.intercalate.go acc sep l).toList =
        acc.toList ++ (l.map (fun a => sep.toList ++ a.toList)).flatten := by
  intro l
  induction l with
  | nil => intro acc; simp [String.intercalate.go]
  | cons a l ih =>
    intro acc
    rw [String.intercalate.go, ih]
    simp [String.toList, List.append_assoc]

/-- Characters of a text joined with colons: the first group, and behind a colon
the rest joined in the same way. -/
theorem intercalate_colon_cons (g g2 : String) (more : List String) :
    (String.intercalate ":" (g :: g2 :: more)).toList =
      g.toList ++ ':' :: (String.intercalate ":" (g2 :: more)).toList := by
  simp only [String.intercalate, intercalate_go_toList, List.map_cons, List.flatten_cons]
  simp [String.toList]

/-- The IPv6 loop of `maskToRPZ` on a text made of groups joined by colons: the
groups come out in reversed order, an empty group as `zz`, and an empty group
behind the last colon is not seen at all (the loop stops when `begin` reaches
the end of the text). -/
theorem maskToRPZ_loop_groups :
    ∀ (gs : List String) (fuel : Nat) (temp : DNSName),
      (∀ g ∈ gs, ':' ∉ g.toList ∧ '.' ∉ g.toList) →
      (String.intercalate ":" gs).toList.length ≤ fuel →
      Zone.maskToRPZ.loop fuel (String.intercalate ":" gs).toList temp =
        .ok (((if gs.getLast? = some "" then gs.dropLast else gs).reverse.map
          (fun g => if g = "" then "zz" else g)) ++ temp) := by
  intro gs
  induction gs with
  | nil =>
    intro fuel temp _ _
    cases fuel <;> rfl
  | cons g rest ih =>
    intro fuel temp hgs hfuel
    have hg := hgs g (List.mem_cons_self _ _)
    have hzz : DNSName.parse "zz" = .ok ["zz"] := by decide
    cases rest with
    | nil =>
      have htext : (String.intercalate ":" [g]).toList = g.toList := rfl
      rw [htext] at hfuel ⊢
      by_cases he : g = ""
      · subst he
        cases fuel <;> rfl
      · have hne : g.toList ≠ [] := fun e => he (String.ext e)
        have hpos : 0 < g.toList.length := List.length_pos.mpr hne
        obtain ⟨f, rfl⟩ : ∃ f, fuel = f + 1 := ⟨fuel - 1, by omega⟩
        have hmk : String.mk g.toList = g := rfl
        have hemp : g.toList.isEmpty = false := by
          cases hl : g.toList with
          | nil => exact absurd hl hne
          | cons c cs => rfl
        have hlast : ¬([g].getLast? = some "") := by
          simp only [List.getLast?_singleton, Option.some.injEq]
          exact he
        rw [Zone.maskToRPZ.loop]
        simp only [hemp, Bool.false_eq_true, if_false, (span_no_colon g.toList hg.1).1,
          (span_no_colon g.toList hg.1).2, hmk, parse_plain g hne hg.2, if_neg hlast,
          List.reverse_singleton, List.map_cons, List.map_nil, if_neg he]
    | cons g2 more =>
      rw [intercalate_colon_cons] at hfuel ⊢
      obtain ⟨f, rfl⟩ : ∃ f, fuel = f + 1 := ⟨fuel - 1, by simp at hfuel; omega⟩
      have hf : (String.intercalate ":" (g2 :: more)).toList.length ≤ f := by
        simp only [List.length_append, List.length_cons] at hfuel
        omega
      have hrest : ∀ x ∈ g2 :: more, ':' ∉ x.toList ∧ '.' ∉ x.toList :=
        fun x hx => hgs x (List.mem_cons_of_mem _ hx)
      have hemp : (g.toList ++ ':' :: (String.intercalate ":" (g2 :: more)).toList).isEmpty
          = false := by
        cases hl : g.toList <;> rfl
      have hmk : String.mk g.toList = g := rfl
      have hlast : (g :: g2 :: more).getLast? = (g2 :: more).getLast? := by simp
      rw [Zone.maskToRPZ.loop]
      simp only [hemp, Bool.false_eq_true, if_false, (span_colon g.toList _ hg.1).1,
        (span_colon g.toList _ hg.1).2, hmk]
      by_cases he : g = ""
      · subst he
        have hsub : ("" : String).toList.isEmpty = true := rfl
        simp only [hsub, if_true, hzz, ih f (["zz"] ++ temp) hrest hf, hlast]
        split <;> simp
      · have hne : g.toList ≠ [] := fun e => he (String.ext e)
        have hsub : g.toList.isEmpty = false := by
          cases hl : g.toList with
          | nil => exact absurd hl hne
          | cons c cs => rfl
        simp only [hsub, Bool.false_eq_true, if_false, parse_plain g hne hg.2,
          ih f ([g] ++ temp) hrest hf, hlast]
        split <;> simp [he]

/-- The IPv6 branch of `maskToRPZ` for a text made of dot-free groups joined by
colons. -/
theorem maskToRPZ_v6 (addrToString : ComboAddress → String) (nm : Netmask)
    (gs : List String) (hv6 : nm.d_network.isIPv4 = false)
    (htext : addrToString nm.d_network = String.intercalate ":" gs)
    (hgs : ∀ g ∈ gs, ':' ∉ g.toList ∧ '.' ∉ g.toList) :
    Zone.maskToRPZ addrToString nm =
      .ok (to_string nm.d_bits ::
        (if gs.getLast? = some "" then gs.dropLast else gs).reverse.map
          (fun g => if g = "" then "zz" else g)) := by
  unfold Zone.maskToRPZ
  have hlen : (String.intercalate ":" gs).length = (String.intercalate ":" gs).toList.length :=
    rfl
  simp only [parse_to_string, hv6, Bool.false_eq_true, if_false, htext]
  rw [hlen, maskToRPZ_loop_groups gs _ [] hgs (le_refl _)]
  simp

/-- C12 as stated fails on two inputs. The block `2001:db8::/32` has the text
`2001:db8::`, whose colon-separated groups are `2001`, `db8` and two empty groups;
the name returned is `32.zz.db8.2001`, with one `zz` only, the empty group behind
the last colon being skipped. And the address `::ffff:192.0.2.1` has the dotted
group `192.0.2.1`, which `DNSName` reads as four labels, so that the name is
`128.192.0.2.1.ffff.zz.zz` and not one label per group. -/
theorem maskToRPZ_v6_counterexample :
    (Zone.maskToRPZ ComboAddress.toString
        { d_network := { isIPv4 := false, addr := 0x20010db8000000000000000000000000 },
          d_bits := 32 }
      = .ok ["32", "zz", "db8", "2001"] ∧
    ComboAddress.toString { isIPv4 := false, addr := 0x20010db8000000000000000000000000 }
      = String.intercalate ":" ["2001", "db8", "", ""] ∧
    Zone.maskToRPZ ComboAddress.toString
        { d_network := { isIPv4 := false, addr := 0x20010db8000000000000000000000000 },
          d_bits := 32 }
      ≠ .ok ("32" :: (["2001", "db8", "", ""].reverse.map
          (fun g => if g = "" then "zz" else g)))) ∧
    (Zone.maskToRPZ ComboAddress.toString
        { d_network := { isIPv4 := false, addr := 0xffffc0000201 }, d_bits := 128 }
      = .ok ["128", "192", "0", "2", "1", "ffff", "zz", "zz"] ∧
    ComboAddress.toString { isIPv4 := false, addr := 0xffffc0000201 }
      = String.intercalate ":" ["", "", "ffff", "192.0.2.1"] ∧
    Zone.maskToRPZ ComboAddress.toString
        { d_network := { isIPv4 := false, addr := 0xffffc0000201 }, d_bits := 128 }
      ≠ .ok ("128" :: (["", "", "ffff", "192.0.2.1"].reverse.map
          (fun g => if g = "" then "zz" else g)))) := by
  decide

/-- Groups none of which is empty are written as they are. -/
theorem map_zz_of_no_empty (l : List String) (h : "" ∉ l) :
    l.map (fun g => if g = "" then "zz" else g) = l := by
  induction l with
  | nil => rfl
  | cons g rest ih =>
    have hg : g ≠ "" := fun e => h (by simp [e])
    have hrest : "" ∉ rest := fun e => h (List.mem_cons_of_mem _ e)
    rw [List.map_cons, if_neg hg, ih hrest]

/-- Groups that end with a non-empty list of non-empty groups do not end with an
empty group. -/
theorem getLast?_append_no_empty (front after : List String) (hne : after ≠ [])
    (h : "" ∉ after) : (front ++ after).getLast? ≠ some "" := by
  intro hlast
  obtain ⟨x, hx⟩ : ∃ x, after.getLast? = some x := by
    cases hl : after.getLast? with
    | none => exact absurd (List.getLast?_eq_none_iff.mp hl) hne
    | some x => exact ⟨x, rfl⟩
  simp only [List.getLast?_append, hx] at hlast
  change some x = some "" at hlast
  rw [Option.some.inj hlast] at hx
  exact h (List.mem_of_getLast?_eq_some hx)

/-- C12 (amended): the IPv6 encoding of `maskToRPZ`, for a text that does not start
with `::`. When the text of the address is dot-free groups joined by colons, the
name returned is the decimal bit-length label followed by the groups in reversed
order, the last group of the text first, with the `::` written as the one label
`zz`: for a text without `::` the groups reversed, for a `::` inside the text the
groups behind it reversed, `zz`, and the groups in front of it reversed, and for
a `::` at the end of the text `zz` and the groups in front of it reversed. -/
theorem maskToRPZ_v6_reversed (addrToString : ComboAddress → String) (nm : Netmask)
    (gs : List String) (hv6 : nm.d_network.isIPv4 = false)
    (htext : addrToString nm.d_network = String.intercalate ":" gs)
    (hgs : ∀ g ∈ gs, ':' ∉ g.toList ∧ '.' ∉ g.toList) :
    ("" ∉ gs →
      Zone.maskToRPZ addrToString nm = .ok (to_string nm.d_bits :: gs.reverse)) ∧
    (∀ before after : List String, gs = before ++ "" :: after → before ≠ [] →
      after ≠ [] → "" ∉ before → "" ∉ after →
      Zone.maskToRPZ addrToString nm =
        .ok (to_string nm.d_bits :: (after.reverse ++ "zz" :: before.reverse))) ∧
    (∀ before : List String, gs = before ++ ["", ""] → before ≠ [] → "" ∉ before →
      Zone.maskToRPZ addrToString nm =
        .ok (to_string nm.d_bits :: "zz" :: before.reverse)) := by
  have hname := maskToRPZ_v6 addrToString nm gs hv6 htext hgs
  refine ⟨?_, ?_, ?_⟩
  · intro hnone
    have hlast : gs.getLast? ≠ some "" :=
      fun h => hnone (List.mem_of_getLast?_eq_some h)
    rw [hname, if_neg hlast, List.map_reverse, map_zz_of_no_empty gs hnone]
  · intro before after hshape _ ha hnb hna
    have hlast : gs.getLast? ≠ some "" := by
      have hsplit : gs = (before ++ [""]) ++ after := by rw [hshape]; simp
      rw [hsplit]
      exact getLast?_append_no_empty _ after ha hna
    rw [hname, if_neg hlast, hshape, List.map_reverse, List.map_append, List.map_cons,
      map_zz_of_no_empty before hnb, map_zz_of_no_empty after hna]
    simp
  · intro before hshape _ hnb
    have hgs2 : gs = (before ++ [""]) ++ [""] := by rw [hshape]; simp
    have hlast : gs.getLast? = some "" := by rw [hgs2, List.getLast?_concat]
    rw [hname, if_pos hlast, hgs2, List.dropLast_concat, List.map_reverse, List.map_append,
      map_zz_of_no_empty before hnb]
    simp

/-- Witness for C12: `2001:db8::1/128` has the groups `2001`, `db8`, an empty one
and `1`, and is encoded as `128.1.zz.db8.2001`. -/
theorem maskToRPZ_v6_reversed_witness :
    ComboAddress.toString { isIPv4 := false, addr := 0x20010db8000000000000000000000001 }
      = String.intercalate ":" ["2001", "db8", "", "1"] ∧
    (∀ g ∈ ["2001", "db8", "", "1"], ':' ∉ g.toList ∧ '.' ∉ g.toList) ∧
    Zone.maskToRPZ ComboAddress.toString
        { d_network := { isIPv4 := false, addr := 0x20010db8000000000000000000000001 },
          d_bits := 128 }
      = .ok ["128", "1", "zz", "db8", "2001"] :=
  ⟨by decide, by decide,
   ((maskToRPZ_v6_reversed ComboAddress.toString
      { d_network := { isIPv4 := false, addr := 0x20010db8000000000000000000000001 },
        d_bits := 128 }
      ["2001", "db8", "", "1"] rfl (by decide) (by decide)).2.1
      ["2001", "db8"] ["1"] rfl (by decide) (by decide) (by decide) (by decide)).trans
    (by decide)⟩

/-- C13 as stated fails: the text `2001:db8::1` of the address
`2001:db8:0:0:0:0:0:1` elides five zero groups, and the name returned,
`128.1.zz.db8.2001`, holds one `zz` label. -/
theorem maskToRPZ_zz_per_elided_group_counterexample :
    Zone.maskToRPZ ComboAddress.toString
        { d_network := { isIPv4 := false, addr := 0x20010db8000000000000000000000001 },
          d_bits := 128 }
      = .ok ["128", "1", "zz", "db8", "2001"] ∧
    List.count "zz" ["128", "1", "zz", "db8", "2001"] = 1 ∧
    ComboAddress.toString { isIPv4 := false, addr := 0x20010db8000000000000000000000001 }
      = "2001:db8::1" ∧
    ComboAddress.words { isIPv4 := false, addr := 0x20010db8000000000000000000000001 }
      = [0x2001, 0xdb8, 0, 0, 0, 0, 0, 1] ∧
    ComboAddress.zeroRun
        (ComboAddress.words { isIPv4 := false, addr := 0x20010db8000000000000000000000001 })
      = (2, 5) := by
  decide

/-- C13 (amended): the `zz` labels of an IPv6 name, for a text that does not start
with `::`. When the text of the address is hexadecimal groups (dot-free, none of
them the text `zz`) joined by colons and holds a `::` inside or at its end, the
name returned holds exactly one `zz` label, whatever the number of groups the
`::` stands for. -/
theorem maskToRPZ_one_zz_per_compression (addrToString : ComboAddress → String)
    (nm : Netmask) (gs : List String) (hv6 : nm.d_network.isIPv4 = false)
    (htext : addrToString nm.d_network = String.intercalate ":" gs)
    (hgs : ∀ g ∈ gs, ':' ∉ g.toList ∧ '.' ∉ g.toList ∧ g ≠ "zz") :
    ∃ name, Zone.maskToRPZ addrToString nm = .ok name ∧
      (∀ before after : List String, gs = before ++ "" :: after → before ≠ [] →
        after ≠ [] → "" ∉ before → "" ∉ after → name.count "zz" = 1) ∧
      (∀ before : List String, gs = before ++ ["", ""] → before ≠ [] → "" ∉ before →
        name.count "zz" = 1) := by
  have hname := maskToRPZ_v6 addrToString nm gs hv6 htext
    (fun g hg => ⟨(hgs g hg).1, (hgs g hg).2.1⟩)
  have hbits : to_string nm.d_bits ≠ "zz" := by
    intro e
    have hz : 'z' ∈ (to_string nm.d_bits).toList := by rw [e]; decide
    exact ((to_string_plain nm.d_bits).2 _ hz).2.2 rfl
  have hsub : ∀ g ∈ (if gs.getLast? = some "" then gs.dropLast else gs), g ≠ "zz" := by
    intro g hg
    split at hg
    · exact (hgs g (List.dropLast_subset gs hg)).2.2
    · exact (hgs g hg).2.2
  have hcount : List.count "zz" (to_string nm.d_bits ::
        (if gs.getLast? = some "" then gs.dropLast else gs).reverse.map
          (fun g => if g = "" then "zz" else g))
      = (if gs.getLast? = some "" then gs.dropLast else gs).count "" := by
    rw [List.count_cons_of_ne (Ne.symm hbits), List.count_eq_countP, List.countP_map,
      List.countP_reverse, List.count_eq_countP]
    apply List.countP_congr
    intro g hg
    simp only [Function.comp_apply, beq_iff_eq]
    constructor
    · intro h
      by_contra hne
      rw [if_neg hne] at h
      exact hsub g hg h
    · intro h
      rw [if_pos h]
  refine ⟨_, hname, ?_, ?_⟩
  · intro before after hshape _ ha hnb hna
    rw [hcount]
    have hlast : gs.getLast? ≠ some "" := by
      have hsplit : gs = (before ++ [""]) ++ after := by rw [hshape]; simp
      rw [hsplit]
      exact getLast?_append_no_empty _ after ha hna
    rw [if_neg hlast, hshape, List.count_append, List.count_cons_self,
      List.count_eq_zero_of_not_mem hnb, List.count_eq_zero_of_not_mem hna]
  · intro before hshape _ hnb
    rw [hcount]
    have hgs2 : gs = (before ++ [""]) ++ [""] := by rw [hshape]; simp
    have hlast : gs.getLast? = some "" := by rw [hgs2, List.getLast?_concat]
    rw [if_pos hlast, hgs2, List.dropLast_concat, List.count_append,
      List.count_eq_zero_of_not_mem hnb]
    rfl

/-- Witness for C13: `2001:db8::`, which ends with the `::` and elides six groups,
gets one `zz` label. -/
theorem maskToRPZ_one_zz_per_compression_witness :
    (ComboAddress.toString { isIPv4 := false, addr := 0x20010db8000000000000000000000000 }
        = String.intercalate ":" ["2001", "db8", "", ""] ∧
      ∀ g ∈ ["2001", "db8", "", ""], ':' ∉ g.toList ∧ '.' ∉ g.toList ∧ g ≠ "zz") ∧
    ∃ name, Zone.maskToRPZ ComboAddress.toString
        { d_network := { isIPv4 := false, addr := 0x20010db8000000000000000000000000 },
          d_bits := 32 } = .ok name ∧
      name.count "zz" = 1 :=
  ⟨⟨by decide, by decide⟩,
   (maskToRPZ_one_zz_per_compression ComboAddress.toString
      { d_network := { isIPv4 := false, addr := 0x20010db8000000000000000000000000 },
        d_bits := 32 }
      ["2001", "db8", "", ""] rfl (by decide) (by decide)).elim
    (fun name h => ⟨name, h.1, h.2.2 ["2001", "db8"] rfl (by decide) (by decide)⟩)⟩

/-! ## Zone serialisation -/

/-- A policy that carries a content when it is `Custom` has a record at every
owner name, with that owner and with a content. -/
theorem getRecord_defined (p : Policy) (qname : DNSName)
    (hinv : p.d_kind = PolicyKind.Custom → p.d_custom.isSome = true) :
    ∃ dr content, p.getRecord qname = .ok dr ∧ dr.d_name = qname ∧
      dr.d_content = some content := by
  by_cases hk : p.d_kind = PolicyKind.Custom
  · obtain ⟨custom, hc⟩ := Option.isSome_iff_exists.mp (hinv hk)
    unfold Policy.getRecord Policy.getCustomRecord
    rw [if_pos hk, if_neg (not_not.mpr hk), hc]
    simp only
    split
    · split
      · split
        · exact ⟨_, _, rfl, rfl, rfl⟩
        · exact ⟨_, _, rfl, rfl, rfl⟩
      · exact ⟨_, _, rfl, rfl, rfl⟩
    · exact ⟨_, _, rfl, rfl, rfl⟩
  · unfold Policy.getRecord Policy.getKindToString
    rw [if_neg hk]
    cases hkind : p.d_kind with
    | Custom => exact absurd hkind hk
    | NoAction => exact ⟨_, _, rfl, rfl, rfl⟩
    | Drop => exact ⟨_, _, rfl, rfl, rfl⟩
    | NXDOMAIN => exact ⟨_, _, rfl, rfl, rfl⟩
    | NODATA => exact ⟨_, _, rfl, rfl, rfl⟩
    | Truncate => exact ⟨_, _, rfl, rfl, rfl⟩

/-- A loop of `dump` over a table whose entries all give a line gives one line
per entry, in the order of the table. -/
theorem dump_each_lines {ε : Type} (line : ε → Except Failure String)
    (R : ε → String → Prop) :
    ∀ table : List ε, (∀ entry ∈ table, ∃ text, line entry = .ok text ∧ R entry text) →
      ∃ lines, Zone.dump.each line table = .ok lines ∧ List.Forall₂ R table lines := by
  intro table
  induction table with
  | nil => intro _; exact ⟨[], rfl, List.Forall₂.nil⟩
  | cons entry rest ih =>
    intro h
    obtain ⟨text, htext, hR⟩ := h entry (List.mem_cons_self _ _)
    obtain ⟨lines, hlines, hall⟩ := ih (fun e he => h e (List.mem_cons_of_mem _ he))
    refine ⟨text :: lines, ?_, List.Forall₂.cons hR hall⟩
    rw [Zone.dump.each, htext]
    simp only [hlines]

/-- The line written for a name trigger, when the policy has a record. -/
theorem dumpNamedPolicy_line (typeName : Nat → String)
    (zoneRepresentation : DNSRecordContent → String) (name : DNSName) (pol : Policy)
    (hinv : pol.d_kind = PolicyKind.Custom → pol.d_custom.isSome = true) :
    ∃ text, Zone.dumpNamedPolicy typeName zoneRepresentation name pol = .ok text ∧
      ∃ dr content, pol.getRecord name = .ok dr ∧ dr.d_name = name ∧
        dr.d_content = some content ∧
        text = DNSName.toString name ++ " " ++ to_string dr.d_ttl ++ " IN " ++
          typeName dr.d_type ++ " " ++ zoneRepresentation content ++ "\n" := by
  obtain ⟨dr, content, hdr, hname, hcontent⟩ := getRecord_defined pol name hinv
  refine ⟨_, ?_, dr, content, hdr, hname, hcontent, rfl⟩
  unfold Zone.dumpNamedPolicy Zone.dumpRecord
  simp only [hdr, hcontent, hname]

/-- The line written for an address trigger, when the block has a name and the
policy a record. -/
theorem dumpAddrPolicy_line (addrToString : ComboAddress → String) (typeName : Nat → String)
    (zoneRepresentation : DNSRecordContent → String) (nm : Netmask) (name : DNSName)
    (pol : Policy) (hinv : pol.d_kind = PolicyKind.Custom → pol.d_custom.isSome = true)
    (hnm : ∃ full, Zone.maskToRPZ addrToString nm = .ok full) :
    ∃ text, Zone.dumpAddrPolicy addrToString typeName zoneRepresentation nm name pol
        = .ok text ∧
      ∃ full dr content, Zone.maskToRPZ addrToString nm = .ok full ∧
        pol.getRecord (full ++ name) = .ok dr ∧ dr.d_name = full ++ name ∧
        dr.d_content = some content ∧
        text = DNSName.toString (full ++ name) ++ " " ++ to_string dr.d_ttl ++ " IN " ++
          typeName dr.d_type ++ " " ++ zoneRepresentation content ++ "\n" := by
  obtain ⟨full, hfull⟩ := hnm
  obtain ⟨dr, content, hdr, hname, hcontent⟩ := getRecord_defined pol (full ++ name) hinv
  refine ⟨_, ?_, full, dr, content, hfull, hdr, hname, hcontent, rfl⟩
  unfold Zone.dumpAddrPolicy Zone.dumpRecord
  simp only [hfull, hdr, hcontent, hname]

/-- C18: the lines of `dump`. For a zone whose stored `Custom` policies carry a
content and whose address keys have a name under `maskToRPZ`, `dump` writes the
`SOA` line first, built from the zone's domain, serial and refresh, and then one
line per stored trigger, so `1` plus the number of entries of the five tables.
The line of a trigger has as owner the key followed by the zone domain (`QName`),
the key followed by `rpz-nsdname.` and the zone domain (`NSDName`), and
`maskToRPZ` of the block followed by `rpz-client-ip.`, `rpz-nsip.` or `rpz-ip.` and
the zone domain (`ClientIP`, `NSIP`, `ResponseIP`); its TTL, type and rdata are
those of the record `getRecord` gives for the stored policy at that owner. -/
theorem dump_lines (addrToString : ComboAddress → String) (typeName : Nat → String)
    (zoneRepresentation : DNSRecordContent → String) (z : Zone)
    (hpol : ∀ pol ∈ z.d_qpolName.map Prod.snd ++ z.d_propolName.map Prod.snd ++
        z.d_qpolAddr.map Prod.snd ++ z.d_propolNSAddr.map Prod.snd ++
        z.d_postpolAddr.map Prod.snd,
      pol.d_kind = PolicyKind.Custom → pol.d_custom.isSome = true)
    (haddr : ∀ nm ∈ z.d_qpolAddr.map Prod.fst ++ z.d_propolNSAddr.map Prod.fst ++
        z.d_postpolAddr.map Prod.fst,
      ∃ full, Zone.maskToRPZ addrToString nm = .ok full) :
    ∃ qname nsdname client nsip response : List String,
      Zone.dump addrToString typeName zoneRepresentation z =
        .ok ((DNSName.toString z.d_domain ++ " IN SOA " ++
            zoneRepresentation (.Unknown QType.SOA
              ("fake.RPZ. hostmaster.fake.RPZ. " ++ to_string z.d_serial ++ " " ++
                to_string z.d_refresh ++ " 600 3600000 604800")) ++ "\n") ::
          (qname ++ nsdname ++ client ++ nsip ++ response)) ∧
      (1 + (qname ++ nsdname ++ client ++ nsip ++ response).length =
        1 + (z.d_qpolName.length + z.d_propolName.length + z.d_qpolAddr.length +
          z.d_propolNSAddr.length + z.d_postpolAddr.length)) ∧
      List.Forall₂ (fun (pair : DNSName × Policy) (text : String) =>
          ∃ dr content, pair.2.getRecord (pair.1 ++ z.d_domain) = .ok dr ∧
            dr.d_name = pair.1 ++ z.d_domain ∧ dr.d_content = some content ∧
            text = DNSName.toString (pair.1 ++ z.d_domain) ++ " " ++ to_string dr.d_ttl ++
              " IN " ++ typeName dr.d_type ++ " " ++ zoneRepresentation content ++ "\n")
        z.d_qpolName qname ∧
      List.Forall₂ (fun (pair : DNSName × Policy) (text : String) =>
          ∃ dr content, pair.2.getRecord (pair.1 ++ ["rpz-nsdname"] ++ z.d_domain) = .ok dr ∧
            dr.d_name = pair.1 ++ ["rpz-nsdname"] ++ z.d_domain ∧
            dr.d_content = some content ∧
            text = DNSName.toString (pair.1 ++ ["rpz-nsdname"] ++ z.d_domain) ++ " " ++
              to_string dr.d_ttl ++ " IN " ++ typeName dr.d_type ++ " " ++
              zoneRepresentation content ++ "\n")
        z.d_propolName nsdname ∧
      List.Forall₂ (fun (pair : Netmask × Policy) (text : String) =>
          ∃ full dr content, Zone.maskToRPZ addrToString pair.1 = .ok full ∧
            pair.2.getRecord (full ++ (["rpz-client-ip"] ++ z.d_domain)) = .ok dr ∧
            dr.d_name = full ++ (["rpz-client-ip"] ++ z.d_domain) ∧
            dr.d_content = some content ∧
            text = DNSName.toString (full ++ (["rpz-client-ip"] ++ z.d_domain)) ++ " " ++
              to_string dr.d_ttl ++ " IN " ++ typeName dr.d_type ++ " " ++
              zoneRepresentation content ++ "\n")
        z.d_qpolAddr client ∧
      List.Forall₂ (fun (pair : Netmask × Policy) (text : String) =>
          ∃ full dr content, Zone.maskToRPZ addrToString pair.1 = .ok full ∧
            pair.2.getRecord (full ++ (["rpz-nsip"] ++ z.d_domain)) = .ok dr ∧
            dr.d_name = full ++ (["rpz-nsip"] ++ z.d_domain) ∧
            dr.d_content = some content ∧
            text = DNSName.toString (full ++ (["rpz-nsip"] ++ z.d_domain)) ++ " " ++
              to_string dr.d_ttl ++ " IN " ++ typeName dr.d_type ++ " " ++
              zoneRepresentation content ++ "\n")
        z.d_propolNSAddr nsip ∧
      List.Forall₂ (fun (pair : Netmask × Policy) (text : String) =>
          ∃ full dr content, Zone.maskToRPZ addrToString pair.1 = .ok full ∧
            pair.2.getRecord (full ++ (["rpz-ip"] ++ z.d_domain)) = .ok dr ∧
            dr.d_name = full ++ (["rpz-ip"] ++ z.d_domain) ∧
            dr.d_content = some content ∧
            text = DNSName.toString (full ++ (["rpz-ip"] ++ z.d_domain)) ++ " " ++
              to_string dr.d_ttl ++ " IN " ++ typeName dr.d_type ++ " " ++
              zoneRepresentation content ++ "\n")
        z.d_postpolAddr response := by
  have hp : ∀ (pair : DNSName × Policy), pair ∈ z.d_qpolName ∨ pair ∈ z.d_propolName →
      pair.2.d_kind = PolicyKind.Custom → pair.2.d_custom.isSome = true := by
    intro pair hmem
    apply hpol
    simp only [List.mem_append, List.mem_map]
    rcases hmem with h | h
    · exact Or.inl (Or.inl (Or.inl (Or.inl ⟨pair, h, rfl⟩)))
    · exact Or.inl (Or.inl (Or.inl (Or.inr ⟨pair, h, rfl⟩)))
  have ha : ∀ (pair : Netmask × Policy),
      pair ∈ z.d_qpolAddr ∨ pair ∈ z.d_propolNSAddr ∨ pair ∈ z.d_postpolAddr →
      (pair.2.d_kind = PolicyKind.Custom → pair.2.d_custom.isSome = true) ∧
      ∃ full, Zone.maskToRPZ addrToString pair.1 = .ok full := by
    intro pair hmem
    constructor
    · apply hpol
      simp only [List.mem_append, List.mem_map]
      rcases hmem with h | h | h
      · exact Or.inl (Or.inl (Or.inr ⟨pair, h, rfl⟩))
      · exact Or.inl (Or.inr ⟨pair, h, rfl⟩)
      · exact Or.inr ⟨pair, h, rfl⟩
    · apply haddr
      simp only [List.mem_append, List.mem_map]
      rcases hmem with h | h | h
      · exact Or.inl (Or.inl ⟨pair, h, rfl⟩)
      · exact Or.inl (Or.inr ⟨pair, h, rfl⟩)
      · exact Or.inr ⟨pair, h, rfl⟩
  obtain ⟨qname, hq, hqall⟩ := dump_each_lines
    (fun pair : DNSName × Policy =>
      Zone.dumpNamedPolicy typeName zoneRepresentation (pair.1 ++ z.d_domain) pair.2) _
    z.d_qpolName
    (fun pair hmem => dumpNamedPolicy_line typeName zoneRepresentation (pair.1 ++ z.d_domain)
      pair.2 (hp pair (Or.inl hmem)))
  obtain ⟨nsdname, hn, hnall⟩ := dump_each_lines
    (fun pair : DNSName × Policy =>
      Zone.dumpNamedPolicy typeName zoneRepresentation
        (pair.1 ++ ["rpz-nsdname"] ++ z.d_domain) pair.2) _
    z.d_propolName
    (fun pair hmem => dumpNamedPolicy_line typeName zoneRepresentation
      (pair.1 ++ ["rpz-nsdname"] ++ z.d_domain) pair.2 (hp pair (Or.inr hmem)))
  obtain ⟨client, hc, hcall⟩ := dump_each_lines
    (fun pair : Netmask × Policy =>
      Zone.dumpAddrPolicy addrToString typeName zoneRepresentation pair.1
        (["rpz-client-ip"] ++ z.d_domain) pair.2) _
    z.d_qpolAddr
    (fun pair hmem => dumpAddrPolicy_line addrToString typeName zoneRepresentation pair.1
      (["rpz-client-ip"] ++ z.d_domain) pair.2 (ha pair (Or.inl hmem)).1
      (ha pair (Or.inl hmem)).2)
  obtain ⟨nsip, hi, hiall⟩ := dump_each_lines
    (fun pair : Netmask × Policy =>
      Zone.dumpAddrPolicy addrToString typeName zoneRepresentation pair.1
        (["rpz-nsip"] ++ z.d_domain) pair.2) _
    z.d_propolNSAddr
    (fun pair hmem => dumpAddrPolicy_line addrToString typeName zoneRepresentation pair.1
      (["rpz-nsip"] ++ z.d_domain) pair.2 (ha pair (Or.inr (Or.inl hmem))).1
      (ha pair (Or.inr (Or.inl hmem))).2)
  obtain ⟨response, hr, hrall⟩ := dump_each_lines
    (fun pair : Netmask × Policy =>
      Zone.dumpAddrPolicy addrToString typeName zoneRepresentation pair.1
        (["rpz-ip"] ++ z.d_domain) pair.2) _
    z.d_postpolAddr
    (fun pair hmem => dumpAddrPolicy_line addrToString typeName zoneRepresentation pair.1
      (["rpz-ip"] ++ z.d_domain) pair.2 (ha pair (Or.inr (Or.inr hmem))).1
      (ha pair (Or.inr (Or.inr hmem))).2)
  refine ⟨qname, nsdname, client, nsip, response, ?_, ?_, hqall, hnall, hcall, hiall, hrall⟩
  · unfold Zone.dump
    simp only [hq, hn, hc, hi, hr]
    rfl
  · simp only [List.length_append, hqall.length_eq, hnall.length_eq, hcall.length_eq,
      hiall.length_eq, hrall.length_eq]

/-- Witness for C18: a zone with one `QName` trigger, one `NSDName` trigger with a
custom `CNAME` and one `ResponseIP` trigger for `192.0.2.0/24` is written as four
lines, the `SOA` line and one line per trigger. -/
theorem dump_lines_witness :
    ∃ lines,
      Zone.dump ComboAddress.toString
          (fun t => if t = QType.CNAME then "CNAME" else "TYPE" ++ to_string t)
          (fun c =>
            match c with
            | .CNAME target => DNSName.toString target
            | .Unknown _ text => text
            | _ => "")
          { d_domain := ["rpz", "example"]
            d_serial := 7
            d_refresh := 3600
            d_qpolName := [((["bad", "com"] : DNSName), ({ d_kind := .Drop, d_ttl := 60 } : Policy))]
            d_propolName :=
              [((["ns", "evil"] : DNSName),
                ({ d_kind := .Custom, d_custom := some (.CNAME ["walled", "garden"]) } : Policy))]
            d_postpolAddr :=
              [(({ d_network := { addr := 3221225984 }, d_bits := 24 } : Netmask),
                ({ d_kind := .NXDOMAIN } : Policy))] }
        = .ok lines ∧
      lines.length = 1 + (1 + 1 + 0 + 0 + 1) ∧
      lines = ["rpz.example. IN SOA fake.RPZ. hostmaster.fake.RPZ. 7 3600 600 3600000 604800\n",
        "bad.com.rpz.example. 60 IN CNAME rpz-drop.\n",
        "ns.evil.rpz-nsdname.rpz.example. 0 IN CNAME walled.garden.\n",
        "24.0.2.0.192.rpz-ip.rpz.example. 0 IN CNAME .\n"] := by
  obtain ⟨qname, nsdname, client, nsip, response, hdump, hlen, -⟩ :=
    dump_lines ComboAddress.toString
      (fun t => if t = QType.CNAME then "CNAME" else "TYPE" ++ to_string t)
      (fun c =>
        match c with
        | .CNAME target => DNSName.toString target
        | .Unknown _ text => text
        | _ => "")
      { d_domain := ["rpz", "example"]
        d_serial := 7
        d_refresh := 3600
        d_qpolName := [((["bad", "com"] : DNSName), ({ d_kind := .Drop, d_ttl := 60 } : Policy))]
        d_propolName :=
          [((["ns", "evil"] : DNSName),
            ({ d_kind := .Custom, d_custom := some (.CNAME ["walled", "garden"]) } : Policy))]
        d_postpolAddr :=
          [(({ d_network := { addr := 3221225984 }, d_bits := 24 } : Netmask),
            ({ d_kind := .NXDOMAIN } : Policy))] }
      (by decide)
      (by
        intro nm hmem
        simp only [List.map_nil, List.map_cons, List.nil_append, List.mem_singleton] at hmem
        subst hmem
        exact ⟨["24", "0", "2", "0", "192"], by decide⟩)
  refine ⟨_, hdump, ?_, Except.ok.inj (hdump.symm.trans (by decide))⟩
  rw [List.length_cons, Nat.add_comm]
  exact hlen

end Filterpo
